import Mathlib

/-!
Shallow embedding of the Elevation Profile Engine of Little Navmap
(`src/profile/profilewidget.cpp`): the background leg builder
`ProfileWidget::fetchRouteElevationsThread`, the screen projector
`ProfileWidget::updateScreenCoords`, and the interactive query engine
`ProfileWidget::mouseMoveEvent`.

Modelling conventions:
* C++ `float` values (altitudes, distances, scale factors) are modelled as
  exact rationals `ℚ`; the claims under scrutiny concern formulas and control
  flow, not rounding.  Rational division by zero yields `0` (the source would
  produce an IEEE infinity; no claim depends on that case).
* `int` pixel coordinates are modelled as `ℤ`; `static_cast<int>` of a
  nonnegative float truncates toward zero, modelled by `truncQ`.
* The external terrain source `ElevationModel::heightProfile` and the route
  snapshot are inputs (`Sampler`, `List RouteMapObject`).
* `atools::geo` helpers are not part of this repository's sources; they are
  modelled from the spec where needed (`meterToFeet`, `meterToNm`,
  `almostEqual`, `Pos::distanceMeterTo` as an abstract nonnegative function,
  `Pos::interpolate` as linear interpolation).
* The cancellation flag `terminate` is read at distinguished program points
  (once per leg at the top of the outer loop, once per sample in the inner
  loop).  A run is modelled by a function `term : Nat → Bool` giving the value
  observed by the k-th read; `noCancel` is the run where the flag never gets
  set.
-/

/-- Geographic position (`atools::geo::Pos`): longitude, latitude and an
altitude in feet.  A default-constructed (invalid) `Pos` is modelled as
`Option.none` at its use sites. -/
structure Pos where
  lon : ℚ
  lat : ℚ
  alt : ℚ
  deriving DecidableEq, Repr

instance : Inhabited Pos := ⟨⟨0, 0, 0⟩⟩

/-- One raw terrain sample (`Marble::GeoDataCoordinates`): longitude, latitude
in degrees and an altitude in meters. -/
structure Coord where
  lon : ℚ
  lat : ℚ
  altMeter : ℚ
  deriving DecidableEq, Repr

/-- A route waypoint snapshot entry (`RouteMapObject`): the fields the profile
engine reads, a geographic position and an ident string. -/
structure RouteMapObject where
  pos : Pos
  ident : String
  deriving DecidableEq, Repr

instance : Inhabited RouteMapObject := ⟨⟨default, ""⟩⟩

/-- Terrain profile of one route leg (`ProfileWidget::ElevationLeg`).
Field defaults model zero-initialisation of a freshly constructed leg. -/
structure ElevationLeg where
  elevation : List Pos := []
  distances : List ℚ := []
  maxElevation : ℚ := 0
  deriving DecidableEq, Repr

instance : Inhabited ElevationLeg := ⟨{}⟩

/-- Full route profile (`ProfileWidget::ElevationLegList`). Field defaults
model the explicit zeroing at the top of `fetchRouteElevationsThread` and a
default-constructed `ElevationLegList()`. -/
structure ElevationLegList where
  elevationLegs : List ElevationLeg := []
  routeMapObjects : List RouteMapObject := []
  totalNumPoints : Nat := 0
  totalDistance : ℚ := 0
  maxRouteElevation : ℚ := 0
  deriving DecidableEq, Repr

/-- Modelled from the spec: `atools::geo::meterToFeet` (not under `src/`);
exact conversion, 1 ft = 0.3048 m. -/
def meterToFeet (m : ℚ) : ℚ := m * 10000 / 3048

/-- Modelled from the spec: `atools::geo::meterToNm` (not under `src/`);
exact conversion, 1 NM = 1852 m. -/
def meterToNm (m : ℚ) : ℚ := m / 1852

/-- Modelled from the spec: `atools::geo::almostEqual(f1, f2, epsilon)` (not
under `src/`); the spec reads "differs ... by less than a fixed tolerance
(10 feet, absolute difference)". -/
def almostEqual (f1 f2 epsilon : ℚ) : Bool := decide (|f1 - f2| < epsilon)

/-- Conversion of a raw sample to a `Pos` (profilewidget.cpp lines 392-393):
altitude goes from meters to feet. -/
def coordToPos (c : Coord) : Pos := ⟨c.lon, c.lat, meterToFeet c.altMeter⟩

/-- A nonnegative rational; the codomain of the abstract great-circle
distance function (`Pos::distanceMeterTo` always returns a nonnegative
number of meters). -/
def NonnegQ := { q : ℚ // 0 ≤ q }

/-- Abstract geodesic distance in meters, `Pos::distanceMeterTo`.  The real
function involves trigonometry; the engine only ever feeds its (nonnegative)
result into `meterToNm`. -/
abbrev DistFn := Pos → Pos → NonnegQ

/-- The terrain source `ElevationModel::heightProfile(lonX1, latY1, lonX2,
latY2)`; may legitimately return the empty list. -/
abbrev Sampler := ℚ → ℚ → ℚ → ℚ → List Coord

/-- The altitude-thinning test of profilewidget.cpp lines 395-398: a sample is
skipped iff the previous retained position is valid, it is neither the first
nor the last sample of the segment (`j != 0 && j != elev.size() - 1`), more
than two legs are already accumulated (`legs.elevationLegs.size() > 2`) and
its altitude is almost equal (tolerance 10 ft) to the last retained one. -/
def dropSample (lastPos : Option Pos) (j n numLegs : Nat) (alt : ℚ) : Bool :=
  match lastPos with
  | none => false
  | some lp =>
      decide (j ≠ 0) && decide (j ≠ n - 1) && decide (2 < numLegs) &&
        almostEqual alt lp.alt 10

/-- Effect of retaining one sample (profilewidget.cpp lines 400-415): update
the per-leg and list-wide running maxima, append the position, advance
`totalDistance` by the great-circle distance from the last retained sample
when `j > 0`, append the running total to the leg's distances, and count the
point. -/
def sampleStep (distFn : DistFn) (j : Nat) (pos : Pos) (leg : ElevationLeg)
    (legs : ElevationLegList) (lastPos : Option Pos) :
    ElevationLeg × ElevationLegList :=
  let leg1 : ElevationLeg :=
    { leg with maxElevation := if pos.alt > leg.maxElevation then pos.alt else leg.maxElevation }
  let legs1 : ElevationLegList :=
    { legs with maxRouteElevation :=
        if pos.alt > legs.maxRouteElevation then pos.alt else legs.maxRouteElevation }
  let leg2 : ElevationLeg := { leg1 with elevation := leg1.elevation ++ [pos] }
  let dist : ℚ :=
    match lastPos with
    | some lp => meterToNm (distFn lp pos).val
    | none => 0
  let legs2 : ElevationLegList :=
    if 0 < j then { legs1 with totalDistance := legs1.totalDistance + dist } else legs1
  let leg3 : ElevationLeg := { leg2 with distances := leg2.distances ++ [legs2.totalDistance] }
  let legs3 : ElevationLegList := { legs2 with totalNumPoints := legs2.totalNumPoints + 1 }
  (leg3, legs3)

/-- The inner sample loop of `fetchRouteElevationsThread` (lines 386-416),
specialised to a run in which the cancellation flag is never observed set.
`n` is `elev.size()`, `j` the current index, `lastPos` the last retained
position of this segment. -/
def legLoopNC (distFn : DistFn) (n : Nat) :
    List Coord → Nat → ElevationLeg → ElevationLegList → Option Pos →
    ElevationLeg × ElevationLegList
  | [], _, leg, legs, _ => (leg, legs)
  | c :: rest, j, leg, legs, lastPos =>
    if dropSample lastPos j n legs.elevationLegs.length (coordToPos c).alt then
      legLoopNC distFn n rest (j + 1) leg legs lastPos
    else
      legLoopNC distFn n rest (j + 1) (sampleStep distFn j (coordToPos c) leg legs lastPos).1
        (sampleStep distFn j (coordToPos c) leg legs lastPos).2 (some (coordToPos c))

/-- The inner sample loop of `fetchRouteElevationsThread` (lines 386-416) with
the cancellation flag: the k-th read of `terminate` observes `term k`; on a
set flag the whole computation returns a default `ElevationLegList()`
(modelled by the `none` result).  `checks` counts flag reads so far. -/
def legLoop (distFn : DistFn) (term : Nat → Bool) (n : Nat) :
    List Coord → Nat → ElevationLeg → ElevationLegList → Option Pos → Nat →
    Option (ElevationLeg × ElevationLegList × Nat)
  | [], _, leg, legs, _, checks => some (leg, legs, checks)
  | c :: rest, j, leg, legs, lastPos, checks =>
    if term checks then none
    else
      if dropSample lastPos j n legs.elevationLegs.length (coordToPos c).alt then
        legLoop distFn term n rest (j + 1) leg legs lastPos (checks + 1)
      else
        legLoop distFn term n rest (j + 1) (sampleStep distFn j (coordToPos c) leg legs lastPos).1
          (sampleStep distFn j (coordToPos c) leg legs lastPos).2 (some (coordToPos c))
          (checks + 1)

/-- The consecutive waypoint pairs the outer loop iterates over
(index `i - 1` against `i` for `i = 1 .. N-1`). -/
def rmoPairs (rmos : List RouteMapObject) : List (RouteMapObject × RouteMapObject) :=
  rmos.zip rmos.tail

/-- The sample list actually walked for one pair (lines 371-382): the terrain
source's output, or — when that is empty — the synthetic two-point
flat-terrain fallback at altitude 0 spanning the two endpoints. -/
def effSamples (sampler : Sampler) (pr : RouteMapObject × RouteMapObject) : List Coord :=
  let elev := sampler pr.1.pos.lon pr.1.pos.lat pr.2.pos.lon pr.2.pos.lat
  if elev.isEmpty then
    [⟨pr.1.pos.lon, pr.1.pos.lat, 0⟩, ⟨pr.2.pos.lon, pr.2.pos.lat, 0⟩]
  else elev

/-- One full uncancelled leg construction (lines 371-416): run the sample
loop over the effective samples of one pair, from index 0, with a fresh
`ElevationLeg` and an invalid last position. -/
def buildLeg (sampler : Sampler) (distFn : DistFn) (pr : RouteMapObject × RouteMapObject)
    (legs : ElevationLegList) : ElevationLeg × ElevationLegList :=
  legLoopNC distFn (effSamples sampler pr).length (effSamples sampler pr) 0 {} legs none

/-- `legs.elevationLegs.append(leg)` (line 417). -/
def appendLeg (s : ElevationLeg × ElevationLegList) : ElevationLegList :=
  { s.2 with elevationLegs := s.2.elevationLegs ++ [s.1] }

/-- The outer leg loop of `fetchRouteElevationsThread` (lines 363-418),
no-cancellation run. -/
def legsLoopNC (sampler : Sampler) (distFn : DistFn) :
    List (RouteMapObject × RouteMapObject) → ElevationLegList → ElevationLegList
  | [], legs => legs
  | pr :: rest, legs =>
    legsLoopNC sampler distFn rest (appendLeg (buildLeg sampler distFn pr legs))

/-- The outer leg loop of `fetchRouteElevationsThread` (lines 363-418) with
the cancellation flag.  A flag observed set at the top of the loop returns the
legs accumulated so far (line 366, `return legs`); a flag observed set inside
the sample loop returns a default-constructed list (line 390,
`return ElevationLegList()`). -/
def legsLoop (sampler : Sampler) (distFn : DistFn) (term : Nat → Bool) :
    List (RouteMapObject × RouteMapObject) → ElevationLegList → Nat → ElevationLegList
  | [], legs, _ => legs
  | pr :: rest, legs, checks =>
    if term checks then legs
    else
      match legLoop distFn term (effSamples sampler pr).length (effSamples sampler pr)
          0 {} legs none (checks + 1) with
      | none => {}
      | some (leg, legs1, checks1) =>
          legsLoop sampler distFn term rest (appendLeg (leg, legs1)) checks1

/-- `ProfileWidget::fetchRouteElevationsThread` (lines 349-423): zero the
totals, snapshot the route, then build one `ElevationLeg` per consecutive
waypoint pair. -/
def fetchRouteElevationsThread (sampler : Sampler) (distFn : DistFn)
    (routeMapObjects : List RouteMapObject) (term : Nat → Bool) : ElevationLegList :=
  legsLoop sampler distFn term (rmoPairs routeMapObjects)
    { routeMapObjects := routeMapObjects } 0

/-- The run in which the cancellation flag is never observed set. -/
def noCancel : Nat → Bool := fun _ => false

/-- Number of cancellation-flag reads one completed outer-loop iteration
performs: the per-leg read at the top of the loop (line 365) plus one
per-sample read (line 389) for each effective sample of the pair.  The flag
is read before the drop decision, so every effective sample costs one read. -/
def pairChecks (sampler : Sampler) (pr : RouteMapObject × RouteMapObject) : Nat :=
  1 + (effSamples sampler pr).length

/-- Number of flag reads performed before the per-leg read of pair `k` in an
uncancelled run: the read order is fixed by the loop structure alone. -/
def checksBefore (sampler : Sampler)
    (pairs : List (RouteMapObject × RouteMapObject)) (k : Nat) : Nat :=
  ((pairs.take k).map (pairChecks sampler)).sum

/-- Total number of flag reads of a full uncancelled run over `pairs`. -/
def totalChecks (sampler : Sampler)
    (pairs : List (RouteMapObject × RouteMapObject)) : Nat :=
  (pairs.map (pairChecks sampler)).sum

/-- Left margin of the profile drawing area (profilewidget.cpp line 42). -/
def X0 : ℤ := 65

/-- Top margin of the profile drawing area (profilewidget.cpp line 42). -/
def Y0 : ℤ := 14

/-- `static_cast<int>` of a float: truncation toward zero. -/
def truncQ (q : ℚ) : ℤ := if q < 0 then ⌈q⌉ else ⌊q⌋

/-- Projection of one terrain sample to a pixel point
(profilewidget.cpp lines 162-163). -/
def projectPoint (h : ℤ) (horizScale vertScale : ℚ) (d alt : ℚ) : ℤ × ℤ :=
  (X0 + truncQ (d * horizScale), Y0 + truncQ ((h : ℚ) - alt * vertScale))

/-- `(lastPt - pt).manhattanLength()` for `QPoint`s. -/
def manhattanLength (p q : ℤ × ℤ) : ℤ := |p.1 - q.1| + |p.2 - q.2|

/-- The inner sample loop of `updateScreenCoords` (lines 159-170) for one leg:
starting from index `i` with tracked last appended point `lastPt` (a fresh
`QPoint lastPt` is null, i.e. `(0, 0)`), emit the projected points that pass
the pixel-thinning test `lastPt.isNull() || i == size-1 ||
(lastPt - pt).manhattanLength() > 2`.  The parallel `distances` vector is read
at the same index (out of range would be undefined in the source; modelled by
a default of 0). -/
def polyPoints (h : ℤ) (horizScale vertScale : ℚ) (leg : ElevationLeg) :
    Nat → ℤ × ℤ → List (ℤ × ℤ)
  | i, lastPt =>
    if hi : i < leg.elevation.length then
      if lastPt = (0, 0) ∨ i = leg.elevation.length - 1 ∨
          manhattanLength lastPt (projectPoint h horizScale vertScale
            (leg.distances.getD i 0) (leg.elevation.getD i default).alt) > 2 then
        projectPoint h horizScale vertScale (leg.distances.getD i 0)
            (leg.elevation.getD i default).alt ::
          polyPoints h horizScale vertScale leg (i + 1)
            (projectPoint h horizScale vertScale (leg.distances.getD i 0)
              (leg.elevation.getD i default).alt)
      else
        polyPoints h horizScale vertScale leg (i + 1) lastPt
    else []
  termination_by i _ => leg.elevation.length - i

/-- Inputs of `updateScreenCoords` beyond the profile itself: widget rectangle
size, flightplan cruising altitude (`getCruisingAlt()`, cast to float), and
whether a valid simulator aircraft is shown (`simData.getPosition().isValid()
&& shown-features contain AIRCRAFT && !flightplan-empty`) together with its
altitude. -/
structure ScreenInput where
  rectWidth : ℤ
  rectHeight : ℤ
  cruisingAlt : ℚ
  simShown : Bool
  simAltitude : ℚ
  deriving DecidableEq, Repr

/-- The projection state computed by `updateScreenCoords`: reference
altitudes, scales, per-waypoint pixel x coordinates and the terrain
silhouette polygon. -/
structure ProjectionState where
  maxRouteElevationFt : ℚ
  flightplanAltFt : ℚ
  maxHeight : ℚ
  vertScale : ℚ
  horizScale : ℚ
  waypointX : List ℤ
  poly : List (ℤ × ℤ)
  deriving DecidableEq, Repr

/-- `ProfileWidget::updateScreenCoords` (lines 133-174).  `leg.distances.first()`
on an empty vector would be undefined in the source; modelled by `headD 0`. -/
def updateScreenCoords (legList : ElevationLegList) (inp : ScreenInput) : ProjectionState :=
  let w : ℤ := inp.rectWidth - X0 * 2
  let h : ℤ := inp.rectHeight - Y0
  let maxRouteElevationFt : ℚ := ((⌈(legList.maxRouteElevation + 1000) / 500⌉ : ℤ) : ℚ) * 500
  let flightplanAltFt : ℚ := inp.cruisingAlt
  let maxHeight0 : ℚ := max maxRouteElevationFt flightplanAltFt
  let maxHeight : ℚ := if inp.simShown then max maxHeight0 inp.simAltitude else maxHeight0
  let vertScale : ℚ := (h : ℚ) / maxHeight
  let horizScale : ℚ := (w : ℚ) / legList.totalDistance
  let waypointX : List ℤ :=
    (legList.elevationLegs.map fun leg => X0 + truncQ (leg.distances.headD 0 * horizScale))
      ++ [X0 + w]
  let poly : List (ℤ × ℤ) :=
    (X0, h + Y0) ::
      ((legList.elevationLegs.flatMap fun leg => polyPoints h horizScale vertScale leg 0 (0, 0))
        ++ [(X0 + w, h + Y0)])
  ⟨maxRouteElevationFt, flightplanAltFt, maxHeight, vertScale, horizScale, waypointX, poly⟩

/-- First index whose element satisfies `p` (the result of a
`std::lower_bound` / `std::upper_bound` search on a sorted sequence, as an
index; `none` models the `end()` iterator). -/
def findFirstIdx {α : Type} (p : α → Bool) : List α → Option Nat
  | [] => none
  | a :: rest => if p a then some 0 else (findFirstIdx p rest).map (· + 1)

/-- The clamping of the query pixel x (lines 489-490):
`x = max(x, X0); x = min(x, rect().width() - X0)`. -/
def clampX (rectWidth xRaw : ℤ) : ℤ := min (max xRaw X0) (rectWidth - X0)

/-- Leg lookup (lines 496-503): `std::lower_bound` over `waypointX`; if the
iterator is not `end()`, the index is one less than its position clamped below
at 0 (`Nat` subtraction models the clamp), otherwise 0. -/
def legIndexForX (wx : List ℤ) (x : ℤ) : Nat :=
  match findFirstIdx (fun d => decide (x ≤ d)) wx with
  | some k => k - 1
  | none => 0

/-- Lower-bound sample index within a leg's distances (lines 511-519):
position of the first entry `≥ distance` if the search hits, otherwise the
initial value 0. -/
def lowDistIndex (ds : List ℚ) (d : ℚ) : Nat :=
  (findFirstIdx (fun e => decide (d ≤ e)) ds).getD 0

/-- Upper-bound sample index within a leg's distances (lines 520-528):
position of the first entry `> distance` if the search hits, otherwise the
initial value 0. -/
def upDistIndex (ds : List ℚ) (d : ℚ) : Nat :=
  (findFirstIdx (fun e => decide (d < e)) ds).getD 0

/-- Pixel x back to route distance (line 510): `(x - X0) / horizScale`. -/
def queryDistance (horizScale : ℚ) (x : ℤ) : ℚ := ((x - X0 : ℤ) : ℚ) / horizScale

/-- Modelled from the spec: `atools::geo::Pos::interpolate` (not under
`src/`); linear interpolation along the straight line between the two
endpoints at fraction `f`. -/
def interpolate (p q : Pos) (f : ℚ) : Pos :=
  ⟨p.lon + (q.lon - p.lon) * f, p.lat + (q.lat - p.lat) * f, p.alt + (q.alt - p.alt) * f⟩

/-- The structured answer the query engine produces for the info label and the
highlight signal (lines 529-549). -/
structure MouseResult where
  fromIdent : String
  toIdent : String
  distanceNm : ℚ
  groundAltitude : ℚ
  aboveGroundAltitude : ℚ
  legSafeAltitude : ℚ
  highlightPos : Pos
  deriving DecidableEq, Repr

/-- `ProfileWidget::mouseMoveEvent` (lines 480-550), reduced to its
computation: `none` models the early return on an empty profile ("no result");
every container access of the source (`at`, `first`, `last`) is modelled by a
fallible lookup, so an out-of-bounds access would also surface as `none`.
UI side effects (rubber band, label text, signal emission) are dropped. -/
def mouseMoveEvent (legList : ElevationLegList) (proj : ProjectionState)
    (rectWidth xRaw : ℤ) : Option MouseResult :=
  if legList.elevationLegs.isEmpty then none
  else
    let x := clampX rectWidth xRaw
    let index := legIndexForX proj.waypointX x
    match legList.elevationLegs.get? index, legList.routeMapObjects.get? index,
        legList.routeMapObjects.get? (index + 1) with
    | some leg, some fromRmo, some toRmo =>
      let distance := queryDistance proj.horizScale x
      let iLow := lowDistIndex leg.distances distance
      let iUp := upDistIndex leg.distances distance
      match leg.elevation.get? iLow, leg.elevation.get? iUp, leg.distances.head?,
          leg.distances.getLast?, leg.elevation.head?, leg.elevation.getLast? with
      | some p1, some p2, some firstDist, some lastDist, some firstPos, some lastPos =>
        let alt := |p1.alt + p2.alt| / 2
        let legdistpart := distance - firstDist
        let legdist := lastDist - firstDist
        let pos := interpolate firstPos lastPos (legdistpart / legdist)
        let maxElev : ℚ := ((⌈(leg.maxElevation + 1000) / 500⌉ : ℤ) : ℚ) * 500
        some ⟨fromRmo.ident, toRmo.ident, distance, alt, proj.flightplanAltFt - alt,
          maxElev, pos⟩
      | _, _, _, _, _, _ => none
    | _, _, _ => none

/-- Reference altitude thinner for one segment, mirroring the retention rule
of lines 395-398 as the amended claim C1 states it: the sample at index `j`
is dropped iff a retained sample precedes it, `j` is neither first nor last,
MORE than two legs are already accumulated (`numLegs > 2`) and its altitude is
within 10 ft of the last retained one; otherwise it is retained. -/
def thinAux (numLegs n : Nat) : List Coord → Nat → Option Pos → List Pos
  | [], _, _ => []
  | c :: rest, j, lastPos =>
    if dropSample lastPos j n numLegs (coordToPos c).alt then
      thinAux numLegs n rest (j + 1) lastPos
    else
      coordToPos c :: thinAux numLegs n rest (j + 1) (some (coordToPos c))

/-- The retained positions of a segment under the amended thinning rule,
given the number of legs already accumulated in the containing list. -/
def thinnedElevation (numLegs : Nat) (samples : List Coord) : List Pos :=
  thinAux numLegs samples.length samples 0 none

/-- Formalisation of claim C1's thinning test as WRITTEN: "at least two legs
have already been accumulated" (`numLegs ≥ 2`), all other conditions as in the
source. -/
def dropSampleClaimC1 (lastPos : Option Pos) (j n numLegs : Nat) (alt : ℚ) : Bool :=
  match lastPos with
  | none => false
  | some lp =>
      decide (j ≠ 0) && decide (j ≠ n - 1) && decide (2 ≤ numLegs) &&
        almostEqual alt lp.alt 10

/-- Segment thinner predicted by claim C1 as written (threshold `≥ 2` legs). -/
def thinClaimAuxC1 (numLegs n : Nat) : List Coord → Nat → Option Pos → List Pos
  | [], _, _ => []
  | c :: rest, j, lastPos =>
    if dropSampleClaimC1 lastPos j n numLegs (coordToPos c).alt then
      thinClaimAuxC1 numLegs n rest (j + 1) lastPos
    else
      coordToPos c :: thinClaimAuxC1 numLegs n rest (j + 1) (some (coordToPos c))

/-- The retained positions of a segment as predicted by claim C1 as written. -/
def thinnedElevationClaimC1 (numLegs : Nat) (samples : List Coord) : List Pos :=
  thinClaimAuxC1 numLegs samples.length samples 0 none

/-- Formalisation of claim C3's pixel-thinning pass as WRITTEN: one tracked
"last appended point" for the whole polygon (`none` until the first terrain
point overall is appended); a point is appended only if it is the first point
overall, the last point of its leg, or farther than 2 pixels (Manhattan) from
the last appended point.  Processes one leg given as (distance, altitude)
pairs; returns the appended points and the updated tracked point. -/
def claimThinLegC3 (h : ℤ) (hs vs : ℚ) :
    List (ℚ × ℚ) → Option (ℤ × ℤ) → List (ℤ × ℤ) × Option (ℤ × ℤ)
  | [], lastPt => ([], lastPt)
  | (d, alt) :: rest, lastPt =>
    let pt := projectPoint h hs vs d alt
    if lastPt = none ∨ rest = [] ∨ manhattanLength (lastPt.getD (0, 0)) pt > 2 then
      let s := claimThinLegC3 h hs vs rest (some pt)
      (pt :: s.1, s.2)
    else
      claimThinLegC3 h hs vs rest lastPt

/-- Claim C3's predicted silhouette points across all legs (tracked last
appended point threaded through the whole profile). -/
def claimPolyC3Aux (h : ℤ) (hs vs : ℚ) :
    List ElevationLeg → Option (ℤ × ℤ) → List (ℤ × ℤ)
  | [], _ => []
  | leg :: rest, lastPt =>
    let s := claimThinLegC3 h hs vs (leg.distances.zip (leg.elevation.map Pos.alt)) lastPt
    s.1 ++ claimPolyC3Aux h hs vs rest s.2

/-- Claim C3's predicted polygon for a profile and viewport: the projector's
seed and closing vertices around the thinned terrain points of claim C3 as
written. -/
def claimPolyC3 (legList : ElevationLegList) (inp : ScreenInput) : List (ℤ × ℤ) :=
  let w : ℤ := inp.rectWidth - X0 * 2
  let h : ℤ := inp.rectHeight - Y0
  let proj := updateScreenCoords legList inp
  (X0, h + Y0) ::
    (claimPolyC3Aux h proj.horizScale proj.vertScale legList.elevationLegs none
      ++ [(X0 + w, h + Y0)])

/-- The pixel-thinning pass as the AMENDED claim C3 states it, for one leg
given as (distance, altitude) pairs: the tracked last point starts as the
null point `(0, 0)` afresh on every leg, so a point is appended iff the
tracked point is still null (in particular for the first point of each leg),
or it is the last point of its leg, or its Manhattan distance from the
tracked point exceeds 2 pixels. -/
def amendedThinLegC3 (h : ℤ) (hs vs : ℚ) :
    List (ℚ × ℚ) → ℤ × ℤ → List (ℤ × ℤ)
  | [], _ => []
  | (d, alt) :: rest, lastPt =>
    if lastPt = (0, 0) ∨ rest = [] ∨ manhattanLength lastPt (projectPoint h hs vs d alt) > 2 then
      projectPoint h hs vs d alt :: amendedThinLegC3 h hs vs rest (projectPoint h hs vs d alt)
    else
      amendedThinLegC3 h hs vs rest lastPt

/-- Per-leg cumulative-distance delta (last minus first entry), the quantity
claim C8 sums over the legs. -/
def legDelta (leg : ElevationLeg) : ℚ := leg.distances.getLastD 0 - leg.distances.headD 0

/-- Concrete distance function for witnesses: every hop measures one nautical
mile (1852 m). -/
def cDist : DistFn := fun _ _ => ⟨1852, by norm_num⟩

/-- Concrete terrain source for witnesses: two flat samples at the endpoints,
altitude 0 m. -/
def flatSampler : Sampler := fun lon1 lat1 lon2 lat2 => [⟨lon1, lat1, 0⟩, ⟨lon2, lat2, 0⟩]

/-- Concrete terrain source for the C1 counterexample: three samples, the
middle one at the same altitude (0 m) as the first, the last one 30 m high. -/
def rampSampler : Sampler := fun lon1 lat1 lon2 lat2 =>
  [⟨lon1, lat1, 0⟩, ⟨(lon1 + lon2) / 2, (lat1 + lat2) / 2, 0⟩, ⟨lon2, lat2, 30⟩]

/-- Concrete terrain source for the C2 counterexample: a single sample. -/
def oneSampler : Sampler := fun lon1 lat1 _ _ => [⟨lon1, lat1, 0⟩]

/-- Concrete terrain source returning nothing, triggering the flat-terrain
fallback. -/
def emptySampler : Sampler := fun _ _ _ _ => []

/-- Two-waypoint route snapshot. -/
def rmosAB : List RouteMapObject := [⟨⟨0, 0, 0⟩, "A"⟩, ⟨⟨1, 0, 0⟩, "B"⟩]

/-- Three-waypoint route snapshot. -/
def rmosABC : List RouteMapObject := [⟨⟨0, 0, 0⟩, "A"⟩, ⟨⟨1, 0, 0⟩, "B"⟩, ⟨⟨2, 0, 0⟩, "C"⟩]

/-- Four-waypoint route snapshot (three legs, so the third leg is built with
two legs already accumulated). -/
def rmosABCD : List RouteMapObject :=
  [⟨⟨0, 0, 0⟩, "A"⟩, ⟨⟨1, 0, 0⟩, "B"⟩, ⟨⟨2, 0, 0⟩, "C"⟩, ⟨⟨3, 0, 0⟩, "D"⟩]

/-- A sample-loop run that completes without observing the cancellation flag
computes the same leg and list as the no-cancellation loop. -/
theorem legLoop_some_eq (distFn : DistFn) (term : Nat → Bool) (n : Nat) (cs : List Coord) :
    ∀ j leg legs lp checks l L c,
      legLoop distFn term n cs j leg legs lp checks = some (l, L, c) →
      legLoopNC distFn n cs j leg legs lp = (l, L) := by
  induction cs with
  | nil =>
    intro j leg legs lp checks l L c h
    simp only [legLoop, Option.some.injEq, Prod.mk.injEq] at h
    simp only [legLoopNC, h.1, h.2.1]
  | cons c0 cs ih =>
    intro j leg legs lp checks l L c h
    simp only [legLoop] at h
    split at h
    · exact absurd h (by simp)
    · simp only [legLoopNC]
      split at h
      next hdrop => rw [if_pos hdrop]; exact ih _ _ _ _ _ _ _ _ h
      next hdrop => rw [if_neg hdrop]; exact ih _ _ _ _ _ _ _ _ h

/-- With the flag never set, the sample loop completes and agrees with the
no-cancellation loop. -/
theorem legLoop_noCancel (distFn : DistFn) (n : Nat) (cs : List Coord) :
    ∀ j leg legs lp checks,
      legLoop distFn noCancel n cs j leg legs lp checks =
        some ((legLoopNC distFn n cs j leg legs lp).1,
          (legLoopNC distFn n cs j leg legs lp).2, checks + cs.length) := by
  induction cs with
  | nil => intro j leg legs lp checks; simp [legLoop, legLoopNC]
  | cons c0 cs ih =>
    intro j leg legs lp checks
    have hc : checks + 1 + cs.length = checks + (c0 :: cs).length := by
      simp [List.length_cons]; omega
    simp only [legLoop, legLoopNC, noCancel, Bool.false_eq_true, if_false]
    split
    · rw [ih, hc]
    · rw [ih, hc]

/-- With the flag never set, the outer loop agrees with its no-cancellation
version, for any check counter. -/
theorem legsLoop_noCancel (sampler : Sampler) (distFn : DistFn)
    (pairs : List (RouteMapObject × RouteMapObject)) :
    ∀ legs checks,
      legsLoop sampler distFn noCancel pairs legs checks = legsLoopNC sampler distFn pairs legs := by
  induction pairs with
  | nil => intro legs checks; simp [legsLoop, legsLoopNC]
  | cons pr rest ih =>
    intro legs checks
    simp only [legsLoop, legsLoopNC, noCancel, Bool.false_eq_true, if_false]
    rw [legLoop_noCancel]
    exact ih _ _

/-- Unfolding `checksBefore` past the first pair: one completed iteration's
reads plus the reads before pair `k` of the remaining pairs. -/
theorem checksBefore_succ (sampler : Sampler) (pr : RouteMapObject × RouteMapObject)
    (rest : List (RouteMapObject × RouteMapObject)) (k : Nat) :
    checksBefore sampler (pr :: rest) (k + 1) =
      1 + (effSamples sampler pr).length + checksBefore sampler rest k := by
  simp only [checksBefore, List.take_succ_cons, List.map_cons, List.sum_cons, pairChecks]

/-- A sample loop whose whole window of flag reads is clear completes,
agrees with the no-cancellation loop and advances the counter by one read
per sample. -/
theorem legLoop_window_false (distFn : DistFn) (term : Nat → Bool) (n : Nat)
    (cs : List Coord) :
    ∀ j leg legs lp checks,
      (∀ i, checks ≤ i → i < checks + cs.length → term i = false) →
      legLoop distFn term n cs j leg legs lp checks =
        some ((legLoopNC distFn n cs j leg legs lp).1,
          (legLoopNC distFn n cs j leg legs lp).2, checks + cs.length) := by
  induction cs with
  | nil => intro j leg legs lp checks _; simp [legLoop, legLoopNC]
  | cons c0 cs ih =>
    intro j leg legs lp checks hw
    have h0 : term checks = false :=
      hw checks (le_refl _) (by simp only [List.length_cons]; omega)
    have hc : checks + 1 + cs.length = checks + (c0 :: cs).length := by
      simp only [List.length_cons]; omega
    have hw1 : ∀ i, checks + 1 ≤ i → i < checks + 1 + cs.length → term i = false := by
      intro i h1 h2
      exact hw i (by omega) (by simp only [List.length_cons]; omega)
    simp only [legLoop, legLoopNC, h0, Bool.false_eq_true, if_false]
    split
    · rw [ih _ _ _ _ _ hw1, hc]
    · rw [ih _ _ _ _ _ hw1, hc]

/-- A sample loop one of whose flag reads observes a set flag aborts with
the `none` (default-list) result, whichever read that is. -/
theorem legLoop_window_true (distFn : DistFn) (term : Nat → Bool) (n : Nat)
    (cs : List Coord) :
    ∀ j leg legs lp checks i, checks ≤ i → i < checks + cs.length → term i = true →
      legLoop distFn term n cs j leg legs lp checks = none := by
  induction cs with
  | nil =>
    intro j leg legs lp checks i h1 h2 _
    simp only [List.length_nil] at h2
    omega
  | cons c0 cs ih =>
    intro j leg legs lp checks i h1 h2 ht
    by_cases h0 : term checks = true
    · simp only [legLoop]
      rw [if_pos h0]
    · have hi1 : checks + 1 ≤ i := by
        rcases Nat.lt_or_ge checks i with h | h
        · omega
        · exfalso
          have hic : i = checks := by omega
          rw [hic] at ht
          exact h0 ht
      have h2a : i < checks + 1 + cs.length := by
        simp only [List.length_cons] at h2; omega
      simp only [legLoop]
      rw [if_neg h0]
      split
      · exact ih _ _ _ _ _ i hi1 h2a ht
      · exact ih _ _ _ _ _ i hi1 h2a ht

/-- An outer-loop run whose whole window of flag reads is clear agrees with
the no-cancellation run. -/
theorem legsLoop_window_false (sampler : Sampler) (distFn : DistFn) (term : Nat → Bool)
    (pairs : List (RouteMapObject × RouteMapObject)) :
    ∀ legs checks,
      (∀ i, checks ≤ i → i < checks + totalChecks sampler pairs → term i = false) →
      legsLoop sampler distFn term pairs legs checks =
        legsLoopNC sampler distFn pairs legs := by
  induction pairs with
  | nil => intro legs checks _; simp [legsLoop, legsLoopNC]
  | cons pr rest ih =>
    intro legs checks hw
    have htot : totalChecks sampler (pr :: rest) =
        1 + (effSamples sampler pr).length + totalChecks sampler rest := by
      simp only [totalChecks, List.map_cons, List.sum_cons, pairChecks]
    have h0 : term checks = false := hw checks (le_refl _) (by omega)
    have hwin : ∀ i, checks + 1 ≤ i →
        i < checks + 1 + (effSamples sampler pr).length → term i = false := by
      intro i h1 h2
      exact hw i (by omega) (by omega)
    simp only [legsLoop, legsLoopNC, h0, Bool.false_eq_true, if_false]
    rw [legLoop_window_false distFn term _ _ 0 {} legs none (checks + 1) hwin]
    exact ih _ _ (fun i h1 h2 => hw i (by omega) (by omega))

/-- An outer-loop run whose flag reads are all clear before the per-leg read
of pair `k`, where the flag is observed set, returns exactly the state
accumulated by the first `k` completed iterations. -/
theorem legsLoop_stop_at_leg_check (sampler : Sampler) (distFn : DistFn) (term : Nat → Bool)
    (pairs : List (RouteMapObject × RouteMapObject)) :
    ∀ legs checks k pr, pairs.get? k = some pr →
      (∀ i, checks ≤ i → i < checks + checksBefore sampler pairs k → term i = false) →
      term (checks + checksBefore sampler pairs k) = true →
      legsLoop sampler distFn term pairs legs checks =
        legsLoopNC sampler distFn (pairs.take k) legs := by
  induction pairs with
  | nil =>
    intro legs checks k pr h
    simp at h
  | cons pr0 rest ih =>
    intro legs checks k pr hget hw ht
    cases k with
    | zero =>
      have h0 : term checks = true := by
        simpa [checksBefore] using ht
      simp only [legsLoop, List.take_zero, legsLoopNC]
      rw [if_pos h0]
    | succ k1 =>
      have hcb : checksBefore sampler (pr0 :: rest) (k1 + 1) =
          1 + (effSamples sampler pr0).length + checksBefore sampler rest k1 :=
        checksBefore_succ sampler pr0 rest k1
      have h0 : term checks = false := hw checks (le_refl _) (by omega)
      have hwin : ∀ i, checks + 1 ≤ i →
          i < checks + 1 + (effSamples sampler pr0).length → term i = false := by
        intro i h1 h2
        exact hw i (by omega) (by omega)
      simp only [legsLoop, h0, Bool.false_eq_true, if_false, List.take_succ_cons, legsLoopNC]
      rw [legLoop_window_false distFn term _ _ 0 {} legs none (checks + 1) hwin]
      have hsh : checks + checksBefore sampler (pr0 :: rest) (k1 + 1) =
          checks + 1 + (effSamples sampler pr0).length + checksBefore sampler rest k1 := by
        omega
      rw [hsh] at ht
      exact ih _ _ k1 pr (by simpa using hget)
        (fun i h1 h2 => hw i (by omega) (by omega)) ht

/-- An outer-loop run whose flag reads are all clear up to and including the
per-leg read of pair `k`, with the flag observed set at the per-sample read
of sample `j` of pair `k`, returns the default-constructed empty list. -/
theorem legsLoop_stop_at_sample_check (sampler : Sampler) (distFn : DistFn) (term : Nat → Bool)
    (pairs : List (RouteMapObject × RouteMapObject)) :
    ∀ legs checks k pr j, pairs.get? k = some pr →
      (∀ i, checks ≤ i → i < checks + checksBefore sampler pairs k + 1 → term i = false) →
      j < (effSamples sampler pr).length →
      term (checks + checksBefore sampler pairs k + 1 + j) = true →
      legsLoop sampler distFn term pairs legs checks = {} := by
  induction pairs with
  | nil =>
    intro legs checks k pr j h
    simp at h
  | cons pr0 rest ih =>
    intro legs checks k pr j hget hw hj ht
    cases k with
    | zero =>
      obtain rfl : pr0 = pr := by simpa using hget
      have hcb0 : checksBefore sampler (pr0 :: rest) 0 = 0 := by
        simp [checksBefore]
      have h0 : term checks = false := hw checks (le_refl _) (by omega)
      simp only [legsLoop, h0, Bool.false_eq_true, if_false]
      rw [legLoop_window_true distFn term _ _ 0 {} legs none (checks + 1)
        (checks + checksBefore sampler (pr0 :: rest) 0 + 1 + j) (by omega) (by omega) ht]
    | succ k1 =>
      have hcb : checksBefore sampler (pr0 :: rest) (k1 + 1) =
          1 + (effSamples sampler pr0).length + checksBefore sampler rest k1 :=
        checksBefore_succ sampler pr0 rest k1
      have h0 : term checks = false := hw checks (le_refl _) (by omega)
      have hwin : ∀ i, checks + 1 ≤ i →
          i < checks + 1 + (effSamples sampler pr0).length → term i = false := by
        intro i h1 h2
        exact hw i (by omega) (by omega)
      simp only [legsLoop, h0, Bool.false_eq_true, if_false]
      rw [legLoop_window_false distFn term _ _ 0 {} legs none (checks + 1) hwin]
      have hsh : checks + checksBefore sampler (pr0 :: rest) (k1 + 1) + 1 + j =
          checks + 1 + (effSamples sampler pr0).length +
            checksBefore sampler rest k1 + 1 + j := by
        omega
      rw [hsh] at ht
      exact ih _ _ k1 pr j (by simpa using hget)
        (fun i h1 h2 => hw i (by omega) (by omega)) hj ht

/-- `if a > m then a else m` is `max m a`. -/
theorem if_gt_eq_max (a m : ℚ) : (if a > m then a else m) = max m a := by
  rcases le_or_lt a m with h | h
  · rw [if_neg (not_lt.mpr h), max_eq_left h]
  · rw [if_pos h, max_eq_right h.le]

theorem sampleStep_elevation (distFn : DistFn) (j : Nat) (pos : Pos) (leg : ElevationLeg)
    (legs : ElevationLegList) (lp : Option Pos) :
    (sampleStep distFn j pos leg legs lp).1.elevation = leg.elevation ++ [pos] := by
  simp only [sampleStep]

theorem sampleStep_distances (distFn : DistFn) (j : Nat) (pos : Pos) (leg : ElevationLeg)
    (legs : ElevationLegList) (lp : Option Pos) :
    (sampleStep distFn j pos leg legs lp).1.distances =
      leg.distances ++ [(sampleStep distFn j pos leg legs lp).2.totalDistance] := by
  simp only [sampleStep]

theorem sampleStep_maxElevation (distFn : DistFn) (j : Nat) (pos : Pos) (leg : ElevationLeg)
    (legs : ElevationLegList) (lp : Option Pos) :
    (sampleStep distFn j pos leg legs lp).1.maxElevation = max leg.maxElevation pos.alt := by
  simp only [sampleStep, if_gt_eq_max]

theorem sampleStep_maxRouteElevation (distFn : DistFn) (j : Nat) (pos : Pos)
    (leg : ElevationLeg) (legs : ElevationLegList) (lp : Option Pos) :
    (sampleStep distFn j pos leg legs lp).2.maxRouteElevation =
      max legs.maxRouteElevation pos.alt := by
  simp only [sampleStep]
  split <;> simp [if_gt_eq_max]

theorem sampleStep_elevationLegs (distFn : DistFn) (j : Nat) (pos : Pos) (leg : ElevationLeg)
    (legs : ElevationLegList) (lp : Option Pos) :
    (sampleStep distFn j pos leg legs lp).2.elevationLegs = legs.elevationLegs := by
  simp only [sampleStep]
  split <;> rfl

theorem sampleStep_routeMapObjects (distFn : DistFn) (j : Nat) (pos : Pos) (leg : ElevationLeg)
    (legs : ElevationLegList) (lp : Option Pos) :
    (sampleStep distFn j pos leg legs lp).2.routeMapObjects = legs.routeMapObjects := by
  simp only [sampleStep]
  split <;> rfl

theorem sampleStep_totalDistance (distFn : DistFn) (j : Nat) (pos : Pos) (leg : ElevationLeg)
    (legs : ElevationLegList) (lp : Option Pos) :
    (sampleStep distFn j pos leg legs lp).2.totalDistance =
      if 0 < j then
        legs.totalDistance + (match lp with
          | some lpv => meterToNm (distFn lpv pos).val
          | none => 0)
      else legs.totalDistance := by
  simp only [sampleStep]
  split <;> rfl

/-- The distance added by a retained sample is nonnegative. -/
theorem sampleStep_totalDistance_mono (distFn : DistFn) (j : Nat) (pos : Pos)
    (leg : ElevationLeg) (legs : ElevationLegList) (lp : Option Pos) :
    legs.totalDistance ≤ (sampleStep distFn j pos leg legs lp).2.totalDistance := by
  rw [sampleStep_totalDistance]
  split
  · have h0 : (0 : ℚ) ≤ (match lp with
        | some lpv => meterToNm (distFn lpv pos).val
        | none => 0) := by
      match lp with
      | some lpv =>
        have := (distFn lpv pos).property
        simpa [meterToNm] using by positivity
      | none => simp
    linarith
  · exact le_refl _

/-- The sample loop never touches the accumulated legs list nor the route
snapshot of the containing `ElevationLegList`. -/
theorem legLoopNC_legs_fixed (distFn : DistFn) (n : Nat) (cs : List Coord) :
    ∀ j leg legs lp,
      (legLoopNC distFn n cs j leg legs lp).2.elevationLegs = legs.elevationLegs ∧
        (legLoopNC distFn n cs j leg legs lp).2.routeMapObjects = legs.routeMapObjects := by
  induction cs with
  | nil => intro j leg legs lp; simp [legLoopNC]
  | cons c0 cs ih =>
    intro j leg legs lp
    simp only [legLoopNC]
    split
    · exact ih _ _ _ _
    · have h := ih (j + 1) (sampleStep distFn j (coordToPos c0) leg legs lp).1
        (sampleStep distFn j (coordToPos c0) leg legs lp).2 (some (coordToPos c0))
      exact ⟨h.1.trans (sampleStep_elevationLegs _ _ _ _ _ _),
        h.2.trans (sampleStep_routeMapObjects _ _ _ _ _ _)⟩

/-- The sample loop only appends to the leg under construction. -/
theorem legLoopNC_appends (distFn : DistFn) (n : Nat) (cs : List Coord) :
    ∀ j leg legs lp,
      (∃ t, (legLoopNC distFn n cs j leg legs lp).1.elevation = leg.elevation ++ t) ∧
        ∃ t, (legLoopNC distFn n cs j leg legs lp).1.distances = leg.distances ++ t := by
  induction cs with
  | nil => intro j leg legs lp; simp [legLoopNC]
  | cons c0 cs ih =>
    intro j leg legs lp
    simp only [legLoopNC]
    split
    · exact ih _ _ _ _
    · obtain ⟨⟨t1, ht1⟩, t2, ht2⟩ := ih (j + 1) (sampleStep distFn j (coordToPos c0) leg legs lp).1
        (sampleStep distFn j (coordToPos c0) leg legs lp).2 (some (coordToPos c0))
      constructor
      · exact ⟨[coordToPos c0] ++ t1, by
          rw [ht1, sampleStep_elevation, List.append_assoc]⟩
      · exact ⟨[(sampleStep distFn j (coordToPos c0) leg legs lp).2.totalDistance] ++ t2, by
          rw [ht2, sampleStep_distances, List.append_assoc]⟩

/-- The sample loop keeps the parallel lists equally long. -/
theorem legLoopNC_length (distFn : DistFn) (n : Nat) (cs : List Coord) :
    ∀ j leg legs lp, leg.elevation.length = leg.distances.length →
      (legLoopNC distFn n cs j leg legs lp).1.elevation.length =
        (legLoopNC distFn n cs j leg legs lp).1.distances.length := by
  induction cs with
  | nil => intro j leg legs lp hl; simpa [legLoopNC] using hl
  | cons c0 cs ih =>
    intro j leg legs lp hl
    simp only [legLoopNC]
    split
    · exact ih _ _ _ _ hl
    · exact ih _ _ _ _ (by
        rw [sampleStep_elevation, sampleStep_distances]
        simp [hl])

/-- The last sample of a segment is never dropped. -/
theorem dropSample_last (lp : Option Pos) (j n k : Nat) (alt : ℚ) (hj : j = n - 1) :
    dropSample lp j n k alt = false := by
  cases lp with
  | none => rfl
  | some p => simp [dropSample, hj]

/-- The first retained entries of a leg: the head of `elevation` is the first
sample of the segment, the head of `distances` is the entry `totalDistance`
(nothing is added for the first sample, `j = 0`). -/
theorem legLoopNC_head (distFn : DistFn) (n : Nat) (c0 : Coord) (cs : List Coord)
    (legs : ElevationLegList) :
    (legLoopNC distFn n (c0 :: cs) 0 {} legs none).1.elevation.head? = some (coordToPos c0) ∧
      (legLoopNC distFn n (c0 :: cs) 0 {} legs none).1.distances.head? =
        some legs.totalDistance := by
  simp only [legLoopNC]
  rw [if_neg (by simp [dropSample])]
  obtain ⟨⟨t1, ht1⟩, t2, ht2⟩ := legLoopNC_appends distFn n cs 1
    (sampleStep distFn 0 (coordToPos c0) {} legs none).1
    (sampleStep distFn 0 (coordToPos c0) {} legs none).2 (some (coordToPos c0))
  constructor
  · rw [ht1, sampleStep_elevation]; rfl
  · rw [ht2, sampleStep_distances, sampleStep_totalDistance]; rfl

/-- The last retained position of a leg is the last sample of the segment
(the boundary sample is exempt from thinning). -/
theorem legLoopNC_last (distFn : DistFn) (n : Nat) (cs : List Coord) :
    ∀ j leg legs lp c, j + cs.length = n → cs.getLast? = some c →
      (legLoopNC distFn n cs j leg legs lp).1.elevation.getLast? = some (coordToPos c) := by
  induction cs with
  | nil => intro j leg legs lp c _ hc; simp at hc
  | cons c0 cs ih =>
    intro j leg legs lp c hn hc
    cases cs with
    | nil =>
      simp only [List.getLast?_singleton, Option.some.injEq] at hc
      subst hc
      have hj : j = n - 1 := by simp only [List.length_cons, List.length_nil] at hn; omega
      simp only [legLoopNC]
      rw [if_neg (by rw [dropSample_last _ _ _ _ _ hj]; simp)]
      simp only [legLoopNC, sampleStep_elevation]
      exact List.getLast?_concat _
    | cons c1 cs1 =>
      have hc1 : (c1 :: cs1).getLast? = some c := by
        simpa [List.getLast?_cons_cons] using hc
      have hn1 : (j + 1) + (c1 :: cs1).length = n := by
        simp only [List.length_cons] at hn ⊢; omega
      simp only [legLoopNC]
      split
      · exact ih _ _ _ _ _ hn1 hc1
      · exact ih _ _ _ _ _ hn1 hc1

/-- Running total distance never decreases along the sample loop. -/
theorem legLoopNC_total_mono (distFn : DistFn) (n : Nat) (cs : List Coord) :
    ∀ j leg legs lp,
      legs.totalDistance ≤ (legLoopNC distFn n cs j leg legs lp).2.totalDistance := by
  induction cs with
  | nil => intro j leg legs lp; simp [legLoopNC]
  | cons c0 cs ih =>
    intro j leg legs lp
    simp only [legLoopNC]
    split
    · exact ih _ _ _ _
    · exact le_trans (sampleStep_totalDistance_mono distFn j (coordToPos c0) leg legs lp)
        (ih _ _ _ _)

/-- If the last entry of the leg's distances (when any) is the running total,
this stays true through the sample loop. -/
theorem legLoopNC_dlast (distFn : DistFn) (n : Nat) (cs : List Coord) :
    ∀ j leg legs lp,
      (leg.distances.getLast? = some legs.totalDistance ∨ leg.distances = []) →
      ((legLoopNC distFn n cs j leg legs lp).1.distances.getLast? =
          some (legLoopNC distFn n cs j leg legs lp).2.totalDistance ∨
        (legLoopNC distFn n cs j leg legs lp).1.distances = []) := by
  induction cs with
  | nil => intro j leg legs lp h; simpa [legLoopNC] using h
  | cons c0 cs ih =>
    intro j leg legs lp h
    simp only [legLoopNC]
    split
    · exact ih _ _ _ _ h
    · refine ih _ _ _ _ ?_
      left
      rw [sampleStep_distances]
      exact List.getLast?_concat _

/-- Distances stay a non-decreasing sequence bounded by the running total. -/
theorem legLoopNC_chain (distFn : DistFn) (n : Nat) (cs : List Coord) :
    ∀ j leg legs lp, List.Chain' (· ≤ ·) leg.distances →
      (∀ x ∈ leg.distances, x ≤ legs.totalDistance) →
      List.Chain' (· ≤ ·) (legLoopNC distFn n cs j leg legs lp).1.distances ∧
        ∀ x ∈ (legLoopNC distFn n cs j leg legs lp).1.distances,
          x ≤ (legLoopNC distFn n cs j leg legs lp).2.totalDistance := by
  induction cs with
  | nil => intro j leg legs lp h1 h2; simpa [legLoopNC] using ⟨h1, h2⟩
  | cons c0 cs ih =>
    intro j leg legs lp h1 h2
    simp only [legLoopNC]
    split
    · exact ih _ _ _ _ h1 h2
    · refine ih _ _ _ _ ?_ ?_
      · rw [sampleStep_distances]
        refine List.Chain'.append h1 (List.chain'_singleton _) ?_
        intro x hx y hy
        simp only [List.head?_cons, Option.mem_def, Option.some.injEq] at hy
        subst hy
        obtain ⟨hne, hxe⟩ := List.mem_getLast?_eq_getLast hx
        have hxm : x ∈ leg.distances := by rw [hxe]; exact List.getLast_mem hne
        exact le_trans (h2 x hxm)
          (sampleStep_totalDistance_mono distFn j (coordToPos c0) leg legs lp)
      · intro x hx
        rw [sampleStep_distances] at hx
        rcases List.mem_append.mp hx with hx | hx
        · exact le_trans (h2 x hx)
            (sampleStep_totalDistance_mono distFn j (coordToPos c0) leg legs lp)
        · simp only [List.mem_singleton] at hx
          subst hx
          exact le_refl _

/-- The retained positions of the sample loop are exactly the reference
thinning of the remaining samples (the accumulated-legs count is frozen for
the whole segment, since the sample loop never appends a leg). -/
theorem legLoopNC_thin (distFn : DistFn) (n : Nat) (cs : List Coord) :
    ∀ j leg legs lp,
      (legLoopNC distFn n cs j leg legs lp).1.elevation =
        leg.elevation ++ thinAux legs.elevationLegs.length n cs j lp := by
  induction cs with
  | nil => intro j leg legs lp; simp [legLoopNC, thinAux]
  | cons c0 cs ih =>
    intro j leg legs lp
    simp only [legLoopNC, thinAux]
    split
    · exact ih _ _ _ _
    · rw [ih (j + 1) (sampleStep distFn j (coordToPos c0) leg legs lp).1
        (sampleStep distFn j (coordToPos c0) leg legs lp).2 (some (coordToPos c0))]
      rw [sampleStep_elevation, sampleStep_elevationLegs, List.append_assoc,
        List.singleton_append]

/-- The per-leg running maximum never decreases along the sample loop. -/
theorem legLoopNC_maxElevation_mono (distFn : DistFn) (n : Nat) (cs : List Coord) :
    ∀ j leg legs lp,
      leg.maxElevation ≤ (legLoopNC distFn n cs j leg legs lp).1.maxElevation := by
  induction cs with
  | nil => intro j leg legs lp; simp [legLoopNC]
  | cons c0 cs ih =>
    intro j leg legs lp
    simp only [legLoopNC]
    split
    · exact ih _ _ _ _
    · refine le_trans ?_ (ih (j + 1) _ _ (some (coordToPos c0)))
      rw [sampleStep_maxElevation]
      exact le_max_left _ _

/-- The list-wide maximum after a leg's samples equals the old list-wide
maximum joined with the leg's own maximum (provided the leg's running maximum
is dominated by the list-wide one at entry, as for a fresh leg). -/
theorem legLoopNC_maxRoute (distFn : DistFn) (n : Nat) (cs : List Coord) :
    ∀ j leg legs lp, leg.maxElevation ≤ legs.maxRouteElevation →
      (legLoopNC distFn n cs j leg legs lp).2.maxRouteElevation =
        max legs.maxRouteElevation (legLoopNC distFn n cs j leg legs lp).1.maxElevation := by
  induction cs with
  | nil =>
    intro j leg legs lp hm
    simp [legLoopNC, max_eq_left hm]
  | cons c0 cs ih =>
    intro j leg legs lp hm
    simp only [legLoopNC]
    split
    · exact ih _ _ _ _ hm
    · have hm1 : (sampleStep distFn j (coordToPos c0) leg legs lp).1.maxElevation ≤
          (sampleStep distFn j (coordToPos c0) leg legs lp).2.maxRouteElevation := by
        rw [sampleStep_maxElevation, sampleStep_maxRouteElevation]
        exact max_le_max hm (le_refl _)
      rw [ih _ _ _ _ hm1, sampleStep_maxRouteElevation]
      have ha : (coordToPos c0).alt ≤
          (legLoopNC distFn n cs (j + 1) (sampleStep distFn j (coordToPos c0) leg legs lp).1
            (sampleStep distFn j (coordToPos c0) leg legs lp).2 (some (coordToPos c0))).1.maxElevation := by
        refine le_trans ?_ (legLoopNC_maxElevation_mono distFn n cs (j + 1) _ _ _)
        rw [sampleStep_maxElevation]
        exact le_max_right _ _
      rw [max_assoc, max_eq_right ha]

theorem appendLeg_elevationLegs (s : ElevationLeg × ElevationLegList) :
    (appendLeg s).elevationLegs = s.2.elevationLegs ++ [s.1] := rfl

theorem appendLeg_routeMapObjects (s : ElevationLeg × ElevationLegList) :
    (appendLeg s).routeMapObjects = s.2.routeMapObjects := rfl

theorem buildLeg_elevationLegs (sampler : Sampler) (distFn : DistFn)
    (pr : RouteMapObject × RouteMapObject) (legs : ElevationLegList) :
    (buildLeg sampler distFn pr legs).2.elevationLegs = legs.elevationLegs :=
  (legLoopNC_legs_fixed _ _ _ _ _ _ _).1

theorem buildLeg_routeMapObjects (sampler : Sampler) (distFn : DistFn)
    (pr : RouteMapObject × RouteMapObject) (legs : ElevationLegList) :
    (buildLeg sampler distFn pr legs).2.routeMapObjects = legs.routeMapObjects :=
  (legLoopNC_legs_fixed _ _ _ _ _ _ _).2

/-- The effective sample list of a pair is never empty: an empty terrain
answer is replaced by the two-point fallback. -/
theorem effSamples_ne_nil (sampler : Sampler) (pr : RouteMapObject × RouteMapObject) :
    effSamples sampler pr ≠ [] := by
  simp only [effSamples]
  split
  · simp
  · next h => simpa [List.isEmpty_iff] using h

/-- The outer loop only appends legs and never touches the route snapshot. -/
theorem legsLoopNC_extends (sampler : Sampler) (distFn : DistFn)
    (pairs : List (RouteMapObject × RouteMapObject)) :
    ∀ legs,
      (∃ t, (legsLoopNC sampler distFn pairs legs).elevationLegs = legs.elevationLegs ++ t) ∧
        (legsLoopNC sampler distFn pairs legs).routeMapObjects = legs.routeMapObjects := by
  induction pairs with
  | nil => intro legs; exact ⟨⟨[], by simp [legsLoopNC]⟩, by simp [legsLoopNC]⟩
  | cons pr rest ih =>
    intro legs
    simp only [legsLoopNC]
    obtain ⟨⟨t, ht⟩, hr⟩ := ih (appendLeg (buildLeg sampler distFn pr legs))
    constructor
    · refine ⟨[(buildLeg sampler distFn pr legs).1] ++ t, ?_⟩
      rw [ht, appendLeg_elevationLegs, buildLeg_elevationLegs, List.append_assoc]
    · rw [hr, appendLeg_routeMapObjects, buildLeg_routeMapObjects]

/-- One leg per waypoint pair. -/
theorem legsLoopNC_length (sampler : Sampler) (distFn : DistFn)
    (pairs : List (RouteMapObject × RouteMapObject)) :
    ∀ legs, (legsLoopNC sampler distFn pairs legs).elevationLegs.length =
      legs.elevationLegs.length + pairs.length := by
  induction pairs with
  | nil => intro legs; simp [legsLoopNC]
  | cons pr rest ih =>
    intro legs
    simp only [legsLoopNC]
    rw [ih, appendLeg_elevationLegs, buildLeg_elevationLegs]
    simp [List.length_append]
    omega

/-- Running the no-cancellation outer loop over a concatenation runs the two
parts in sequence. -/
theorem legsLoopNC_append (sampler : Sampler) (distFn : DistFn)
    (l1 l2 : List (RouteMapObject × RouteMapObject)) :
    ∀ legs, legsLoopNC sampler distFn (l1 ++ l2) legs =
      legsLoopNC sampler distFn l2 (legsLoopNC sampler distFn l1 legs) := by
  induction l1 with
  | nil => intro legs; rfl
  | cons pr rest ih =>
    intro legs
    simp only [List.cons_append, legsLoopNC]
    exact ih _

/-- Starting from a state with no legs, the legs accumulated after the first
`k` outer iterations are exactly the first `k` legs of the full run. -/
theorem legsLoopNC_take (sampler : Sampler) (distFn : DistFn)
    (pairs : List (RouteMapObject × RouteMapObject)) (legs : ElevationLegList)
    (k : Nat) (hk : k ≤ pairs.length) (hnil : legs.elevationLegs = []) :
    (legsLoopNC sampler distFn (pairs.take k) legs).elevationLegs =
      (legsLoopNC sampler distFn pairs legs).elevationLegs.take k := by
  have h1 : legsLoopNC sampler distFn pairs legs =
      legsLoopNC sampler distFn (pairs.drop k)
        (legsLoopNC sampler distFn (pairs.take k) legs) := by
    conv_lhs => rw [← List.take_append_drop k pairs]
    exact legsLoopNC_append sampler distFn _ _ legs
  have hlen : (legsLoopNC sampler distFn (pairs.take k) legs).elevationLegs.length = k := by
    rw [legsLoopNC_length, hnil]
    simp only [List.length_nil, List.length_take, Nat.zero_add]
    omega
  obtain ⟨⟨t, ht⟩, _⟩ := legsLoopNC_extends sampler distFn (pairs.drop k)
    (legsLoopNC sampler distFn (pairs.take k) legs)
  rw [h1, ht, List.take_left' hlen]

/-- The k-th produced leg is the leg the Leg Builder computes for the k-th
pair, invoked on a state with exactly `k` accumulated legs and the original
route snapshot. -/
theorem legsLoopNC_get (sampler : Sampler) (distFn : DistFn)
    (pairs : List (RouteMapObject × RouteMapObject)) :
    ∀ legs k pr, pairs.get? k = some pr →
      ∃ st : ElevationLegList,
        st.elevationLegs.length = legs.elevationLegs.length + k ∧
          st.routeMapObjects = legs.routeMapObjects ∧
          (legsLoopNC sampler distFn pairs legs).elevationLegs.get?
              (legs.elevationLegs.length + k) = some (buildLeg sampler distFn pr st).1 := by
  induction pairs with
  | nil => intro legs k pr h; simp at h
  | cons pr0 rest ih =>
    intro legs k pr h
    cases k with
    | zero =>
      obtain rfl : pr0 = pr := by simpa using h
      simp only [legsLoopNC]
      obtain ⟨⟨t, ht⟩, _⟩ :=
        legsLoopNC_extends sampler distFn rest (appendLeg (buildLeg sampler distFn pr0 legs))
      refine ⟨legs, by omega, rfl, ?_⟩
      rw [ht, appendLeg_elevationLegs, buildLeg_elevationLegs, List.append_assoc]
      simp only [Nat.add_zero]
      rw [List.get?_append_right (le_refl _)]
      simp
    | succ k1 =>
      have h1 : rest.get? k1 = some pr := by simpa using h
      simp only [legsLoopNC]
      obtain ⟨st, hlen, hrmo, hget⟩ := ih (appendLeg (buildLeg sampler distFn pr0 legs)) k1 pr h1
      refine ⟨st, ?_, ?_, ?_⟩
      · rw [hlen, appendLeg_elevationLegs, buildLeg_elevationLegs]
        simp [List.length_append]
        omega
      · rw [hrmo, appendLeg_routeMapObjects, buildLeg_routeMapObjects]
      · have hidx : legs.elevationLegs.length + (k1 + 1) =
            (appendLeg (buildLeg sampler distFn pr0 legs)).elevationLegs.length + k1 := by
          rw [appendLeg_elevationLegs, buildLeg_elevationLegs]
          simp [List.length_append]
          omega
        rw [hidx]
        exact hget

/-- `rmoPairs` has one entry per waypoint pair. -/
theorem rmoPairs_length (rmos : List RouteMapObject) :
    (rmoPairs rmos).length = rmos.length - 1 := by
  simp only [rmoPairs, List.length_zip, List.length_tail]
  omega

/-- Degenerate routes have no pairs. -/
theorem rmoPairs_degenerate (rmos : List RouteMapObject) (h : rmos.length ≤ 1) :
    rmoPairs rmos = [] := by
  match rmos, h with
  | [], _ => rfl
  | [a], _ => rfl

/-- The first distance entry of a built leg is the running total at entry. -/
theorem buildLeg_dist_head (sampler : Sampler) (distFn : DistFn)
    (pr : RouteMapObject × RouteMapObject) (legs : ElevationLegList) :
    (buildLeg sampler distFn pr legs).1.distances.head? = some legs.totalDistance := by
  obtain ⟨c0, cs, hes⟩ := List.exists_cons_of_ne_nil (effSamples_ne_nil sampler pr)
  unfold buildLeg
  rw [hes]
  exact (legLoopNC_head distFn (c0 :: cs).length c0 cs legs).2

/-- The first elevation entry of a built leg is the first effective sample. -/
theorem buildLeg_elev_head (sampler : Sampler) (distFn : DistFn)
    (pr : RouteMapObject × RouteMapObject) (legs : ElevationLegList) :
    (buildLeg sampler distFn pr legs).1.elevation.head? =
      ((effSamples sampler pr).head?).map coordToPos := by
  obtain ⟨c0, cs, hes⟩ := List.exists_cons_of_ne_nil (effSamples_ne_nil sampler pr)
  unfold buildLeg
  rw [hes]
  rw [(legLoopNC_head distFn (c0 :: cs).length c0 cs legs).1]
  rfl

/-- The last elevation entry of a built leg is the last effective sample. -/
theorem buildLeg_elev_last (sampler : Sampler) (distFn : DistFn)
    (pr : RouteMapObject × RouteMapObject) (legs : ElevationLegList) :
    (buildLeg sampler distFn pr legs).1.elevation.getLast? =
      ((effSamples sampler pr).getLast?).map coordToPos := by
  obtain ⟨c, hc⟩ := Option.isSome_iff_exists.mp
    (Option.ne_none_iff_isSome.mp (mt List.getLast?_eq_none.mp (effSamples_ne_nil sampler pr)))
  unfold buildLeg
  rw [legLoopNC_last distFn (effSamples sampler pr).length (effSamples sampler pr)
    0 {} legs none c (by omega) hc, hc]
  rfl

/-- The last distance entry of a built leg is the running total at exit. -/
theorem buildLeg_dist_last (sampler : Sampler) (distFn : DistFn)
    (pr : RouteMapObject × RouteMapObject) (legs : ElevationLegList) :
    (buildLeg sampler distFn pr legs).1.distances.getLast? =
      some (buildLeg sampler distFn pr legs).2.totalDistance := by
  rcases legLoopNC_dlast distFn (effSamples sampler pr).length (effSamples sampler pr)
      0 {} legs none (Or.inr rfl) with h | h
  · exact h
  · exfalso
    have hh := buildLeg_dist_head sampler distFn pr legs
    unfold buildLeg at hh
    rw [h] at hh
    simp at hh

/-- The per-leg distance delta of a built leg is exactly the advance of the
running total across the leg. -/
theorem buildLeg_delta (sampler : Sampler) (distFn : DistFn)
    (pr : RouteMapObject × RouteMapObject) (legs : ElevationLegList) :
    legDelta (buildLeg sampler distFn pr legs).1 =
      (buildLeg sampler distFn pr legs).2.totalDistance - legs.totalDistance := by
  unfold legDelta
  rw [List.getLastD_eq_getLast?, List.headD_eq_head?, buildLeg_dist_last, buildLeg_dist_head]
  rfl

/-- Invariant: `totalDistance` is the sum of per-leg distance deltas. -/
theorem legsLoopNC_totalDistance (sampler : Sampler) (distFn : DistFn)
    (pairs : List (RouteMapObject × RouteMapObject)) :
    ∀ legs, legs.totalDistance = (legs.elevationLegs.map legDelta).sum →
      (legsLoopNC sampler distFn pairs legs).totalDistance =
        ((legsLoopNC sampler distFn pairs legs).elevationLegs.map legDelta).sum := by
  induction pairs with
  | nil => intro legs h; simpa [legsLoopNC] using h
  | cons pr rest ih =>
    intro legs h
    simp only [legsLoopNC]
    refine ih _ ?_
    rw [appendLeg_elevationLegs, buildLeg_elevationLegs]
    have hd := buildLeg_delta sampler distFn pr legs
    simp only [List.map_append, List.map_cons, List.map_nil, List.sum_append, List.sum_cons,
      List.sum_nil, add_zero]
    rw [hd, ← h]
    show (buildLeg sampler distFn pr legs).2.totalDistance = _
    ring

/-- Invariant: `maxRouteElevation` is the running fold of the legs' maxima. -/
theorem legsLoopNC_maxRoute (sampler : Sampler) (distFn : DistFn)
    (pairs : List (RouteMapObject × RouteMapObject)) :
    ∀ legs,
      legs.maxRouteElevation =
        (legs.elevationLegs.map ElevationLeg.maxElevation).foldl max 0 →
      0 ≤ legs.maxRouteElevation →
      (legsLoopNC sampler distFn pairs legs).maxRouteElevation =
        ((legsLoopNC sampler distFn pairs legs).elevationLegs.map
          ElevationLeg.maxElevation).foldl max 0 := by
  induction pairs with
  | nil => intro legs h _; simpa [legsLoopNC] using h
  | cons pr rest ih =>
    intro legs h h0
    simp only [legsLoopNC]
    have hmr : (buildLeg sampler distFn pr legs).2.maxRouteElevation =
        max legs.maxRouteElevation (buildLeg sampler distFn pr legs).1.maxElevation := by
      unfold buildLeg
      exact legLoopNC_maxRoute distFn _ _ 0 {} legs none (by simpa using h0)
    refine ih _ ?_ ?_
    · show (buildLeg sampler distFn pr legs).2.maxRouteElevation = _
      rw [appendLeg_elevationLegs, buildLeg_elevationLegs, hmr, h]
      simp [List.foldl_append]
    · show 0 ≤ (buildLeg sampler distFn pr legs).2.maxRouteElevation
      rw [hmr]
      exact le_trans h0 (le_max_left _ _)

/-- Invariant: legs glue contiguously (each leg starts at the running total
the previous leg ended with) and the first leg starts at 0. -/
theorem legsLoopNC_contig (sampler : Sampler) (distFn : DistFn)
    (pairs : List (RouteMapObject × RouteMapObject)) :
    ∀ legs,
      List.Chain' (fun a b => b.distances.head? = a.distances.getLast?) legs.elevationLegs →
      (∀ lg, legs.elevationLegs.head? = some lg → lg.distances.head? = some 0) →
      (legs.elevationLegs = [] → legs.totalDistance = 0) →
      (∀ lg, legs.elevationLegs.getLast? = some lg →
        lg.distances.getLast? = some legs.totalDistance) →
      List.Chain' (fun a b => b.distances.head? = a.distances.getLast?)
          (legsLoopNC sampler distFn pairs legs).elevationLegs ∧
        (∀ lg, (legsLoopNC sampler distFn pairs legs).elevationLegs.head? = some lg →
          lg.distances.head? = some 0) := by
  induction pairs with
  | nil =>
    intro legs h1 h2 _ _
    simp only [legsLoopNC]
    exact ⟨h1, h2⟩
  | cons pr rest ih =>
    intro legs h1 h2 h3 h4
    simp only [legsLoopNC]
    refine ih _ ?_ ?_ ?_ ?_
    · rw [appendLeg_elevationLegs, buildLeg_elevationLegs]
      refine List.Chain'.append h1 (List.chain'_singleton _) ?_
      intro a ha b hb
      simp only [List.head?_cons, Option.mem_def, Option.some.injEq] at hb
      subst hb
      obtain ⟨hne, hae⟩ := List.mem_getLast?_eq_getLast ha
      have ha' : legs.elevationLegs.getLast? = some a := by
        rw [List.getLast?_eq_getLast _ hne, hae]
      rw [buildLeg_dist_head, h4 a ha']
    · intro lg hlg
      rw [appendLeg_elevationLegs, buildLeg_elevationLegs] at hlg
      cases hel : legs.elevationLegs with
      | nil =>
        rw [hel, List.nil_append, List.head?_cons, Option.some.injEq] at hlg
        subst hlg
        rw [buildLeg_dist_head, h3 hel]
      | cons l0 ls =>
        rw [hel, List.cons_append, List.head?_cons, Option.some.injEq] at hlg
        rw [← hlg]
        exact h2 l0 (by rw [hel, List.head?_cons])
    · intro hemp
      rw [appendLeg_elevationLegs] at hemp
      exact absurd hemp (by simp)
    · intro lg hlg
      rw [appendLeg_elevationLegs, buildLeg_elevationLegs, List.getLast?_concat,
        Option.some.injEq] at hlg
      subst hlg
      exact buildLeg_dist_last sampler distFn pr legs

/-- Any cancelled or uncancelled run returns either the default-constructed
empty list (per-sample cancellation) or a list carrying the route snapshot
whose legs are a prefix of the full run's legs (per-leg cancellation returns
the legs accumulated so far; completion returns all of them). -/
theorem legsLoop_result (sampler : Sampler) (distFn : DistFn) (term : Nat → Bool)
    (pairs : List (RouteMapObject × RouteMapObject)) :
    ∀ legs checks,
      legsLoop sampler distFn term pairs legs checks = {} ∨
        ((legsLoop sampler distFn term pairs legs checks).routeMapObjects =
            legs.routeMapObjects ∧
          (legsLoop sampler distFn term pairs legs checks).elevationLegs <+:
            (legsLoopNC sampler distFn pairs legs).elevationLegs) := by
  induction pairs with
  | nil =>
    intro legs checks
    right
    simp only [legsLoop, legsLoopNC]
    exact ⟨trivial, List.prefix_refl _⟩
  | cons pr rest ih =>
    intro legs checks
    simp only [legsLoop, legsLoopNC]
    split
    · right
      refine ⟨rfl, ?_⟩
      obtain ⟨⟨t, ht⟩, _⟩ :=
        legsLoopNC_extends sampler distFn rest (appendLeg (buildLeg sampler distFn pr legs))
      rw [ht, appendLeg_elevationLegs, buildLeg_elevationLegs, List.append_assoc]
      exact List.prefix_append _ _
    · cases hm : legLoop distFn term (effSamples sampler pr).length (effSamples sampler pr)
          0 {} legs none (checks + 1) with
      | none => left; rfl
      | some trip =>
        obtain ⟨leg, legs1, checks1⟩ := trip
        have heq : legLoopNC distFn (effSamples sampler pr).length (effSamples sampler pr)
            0 {} legs none = (leg, legs1) :=
          legLoop_some_eq distFn term _ _ _ _ _ _ _ _ _ _ hm
        have hb : appendLeg (leg, legs1) = appendLeg (buildLeg sampler distFn pr legs) := by
          unfold buildLeg
          rw [heq]
        rcases ih (appendLeg (leg, legs1)) checks1 with h | ⟨hr, hp⟩
        · left; exact h
        · right
          refine ⟨?_, ?_⟩
          · rw [hr, hb, appendLeg_routeMapObjects, buildLeg_routeMapObjects]
          · rw [← hb]
            exact hp

/-- The projector's per-leg pixel-thinning loop coincides with the amended
per-leg reference thinner over the (distance, altitude) pairs, as long as
the two parallel vectors have the same length. -/
theorem polyPoints_eq_amended (h : ℤ) (hs vs : ℚ) (leg : ElevationLeg)
    (hlen : leg.distances.length = leg.elevation.length) :
    ∀ m k lastPt, leg.elevation.length - k ≤ m →
      polyPoints h hs vs leg k lastPt =
        amendedThinLegC3 h hs vs
          ((leg.distances.zip (leg.elevation.map Pos.alt)).drop k) lastPt := by
  have hzlen : (leg.distances.zip (leg.elevation.map Pos.alt)).length =
      leg.elevation.length := by
    simp [List.length_zip, hlen]
  intro m
  induction m with
  | zero =>
    intro k lastPt hm
    rw [polyPoints, dif_neg (by omega),
      List.drop_eq_nil_of_le (by omega), amendedThinLegC3]
  | succ m ih =>
    intro k lastPt hm
    by_cases hk : k < leg.elevation.length
    · have hkz : k < (leg.distances.zip (leg.elevation.map Pos.alt)).length := by omega
      have hdk : (leg.distances.zip (leg.elevation.map Pos.alt)).drop k =
          (leg.distances.getD k 0, (leg.elevation.getD k default).alt) ::
            (leg.distances.zip (leg.elevation.map Pos.alt)).drop (k + 1) := by
        rw [List.drop_eq_getElem_cons hkz]
        congr 1
        rw [List.getElem_zip, List.getElem_map,
          List.getD_eq_getElem _ _ (show k < leg.distances.length by omega),
          List.getD_eq_getElem _ _ (show k < leg.elevation.length by omega)]
      have hrest : (((leg.distances.zip (leg.elevation.map Pos.alt)).drop (k + 1) :
          List (ℚ × ℚ)) = []) ↔ k = leg.elevation.length - 1 := by
        rw [List.drop_eq_nil_iff]
        omega
      rw [polyPoints, dif_pos hk, hdk, amendedThinLegC3]
      by_cases hc : lastPt = (0, 0) ∨ k = leg.elevation.length - 1 ∨
          manhattanLength lastPt (projectPoint h hs vs (leg.distances.getD k 0)
            (leg.elevation.getD k default).alt) > 2
      · rw [if_pos hc, if_pos (by
          rcases hc with hc | hc | hc
          · exact Or.inl hc
          · exact Or.inr (Or.inl (hrest.mpr hc))
          · exact Or.inr (Or.inr hc))]
        rw [ih (k + 1) _ (by omega)]
      · rw [if_neg hc, if_neg (by
          intro hc2
          rcases hc2 with hc2 | hc2 | hc2
          · exact hc (Or.inl hc2)
          · exact hc (Or.inr (Or.inl (hrest.mp hc2)))
          · exact hc (Or.inr (Or.inr hc2)))]
        exact ih (k + 1) _ (by omega)
    · rw [polyPoints, dif_neg hk, List.drop_eq_nil_of_le (by omega), amendedThinLegC3]

/-- A successful first-index search returns an in-range index. -/
theorem findFirstIdx_lt_length {α : Type} (p : α → Bool) :
    ∀ (l : List α) i, findFirstIdx p l = some i → i < l.length := by
  intro l
  induction l with
  | nil => intro i h; simp [findFirstIdx] at h
  | cons a rest ih =>
    intro i h
    simp only [findFirstIdx] at h
    split at h
    · simp only [Option.some.injEq] at h
      simp only [List.length_cons]
      omega
    · cases hr : findFirstIdx p rest with
      | none => rw [hr] at h; simp at h
      | some j =>
        rw [hr] at h
        simp only [Option.map_some', Option.some.injEq] at h
        have := ih j hr
        simp only [List.length_cons]
        omega

/-- The no-cancellation run of the thread is the no-cancellation outer loop. -/
theorem fetch_noCancel (sampler : Sampler) (distFn : DistFn) (rmos : List RouteMapObject) :
    fetchRouteElevationsThread sampler distFn rmos noCancel =
      legsLoopNC sampler distFn (rmoPairs rmos) { routeMapObjects := rmos } := by
  unfold fetchRouteElevationsThread
  rw [legsLoop_noCancel]

/-- C5: for every profile and viewport, `updateScreenCoords` computes the
reference altitude as `ceil((maxRouteElevation + 1000) / 500) * 500` and the
top of the altitude axis as the maximum of that reference, the flightplan
cruise altitude, and the live aircraft altitude when the aircraft is valid and
shown; in particular for the 2-waypoint flat-terrain route at cruise 10000 ft
the reference is 1000 and the axis top is 10000. -/
theorem c5_reference_altitude (legList : ElevationLegList) (inp : ScreenInput) :
    ((updateScreenCoords legList inp).maxRouteElevationFt =
        ((⌈(legList.maxRouteElevation + 1000) / 500⌉ : ℤ) : ℚ) * 500 ∧
      (updateScreenCoords legList inp).maxHeight =
        (if inp.simShown then
          max (max (((⌈(legList.maxRouteElevation + 1000) / 500⌉ : ℤ) : ℚ) * 500)
            inp.cruisingAlt) inp.simAltitude
        else
          max (((⌈(legList.maxRouteElevation + 1000) / 500⌉ : ℤ) : ℚ) * 500)
            inp.cruisingAlt)) ∧
      (updateScreenCoords (fetchRouteElevationsThread flatSampler cDist rmosAB noCancel)
          ⟨400, 300, 10000, false, 0⟩).maxRouteElevationFt = 1000 ∧
      (updateScreenCoords (fetchRouteElevationsThread flatSampler cDist rmosAB noCancel)
          ⟨400, 300, 10000, false, 0⟩).maxHeight = 10000 := by
  refine ⟨⟨rfl, rfl⟩, ?_, ?_⟩
  · norm_num [fetchRouteElevationsThread, legsLoop, legLoop, appendLeg, rmoPairs, rmosAB,
      effSamples, flatSampler, noCancel, dropSample, sampleStep, coordToPos, meterToFeet,
      meterToNm, almostEqual, cDist, updateScreenCoords]
  · norm_num [fetchRouteElevationsThread, legsLoop, legLoop, appendLeg, rmoPairs, rmosAB,
      effSamples, flatSampler, noCancel, dropSample, sampleStep, coordToPos, meterToFeet,
      meterToNm, almostEqual, cDist, updateScreenCoords]

/-- C8: for every non-cancelled run, the assembled list has one leg per
waypoint pair (`legs.length = waypoints.length - 1`), `totalDistance` is the
sum of per-leg distance deltas, `maxRouteElevation` is the maximum (joined
with the 0 initialisation) of the legs' maxima, and a degenerate route of at
most one waypoint yields the empty list with zero totals. -/
theorem c8_assembly_totals (sampler : Sampler) (distFn : DistFn)
    (rmos : List RouteMapObject) :
    (fetchRouteElevationsThread sampler distFn rmos noCancel).elevationLegs.length =
        rmos.length - 1 ∧
      (fetchRouteElevationsThread sampler distFn rmos noCancel).totalDistance =
        ((fetchRouteElevationsThread sampler distFn rmos noCancel).elevationLegs.map
          legDelta).sum ∧
      (fetchRouteElevationsThread sampler distFn rmos noCancel).maxRouteElevation =
        ((fetchRouteElevationsThread sampler distFn rmos noCancel).elevationLegs.map
          ElevationLeg.maxElevation).foldl max 0 ∧
      (rmos.length ≤ 1 →
        fetchRouteElevationsThread sampler distFn rmos noCancel = { routeMapObjects := rmos }) := by
  refine ⟨?_, ?_, ?_, ?_⟩
  · rw [fetch_noCancel, legsLoopNC_length]
    simp [rmoPairs_length]
  · rw [fetch_noCancel]
    exact legsLoopNC_totalDistance sampler distFn _ _ rfl
  · rw [fetch_noCancel]
    exact legsLoopNC_maxRoute sampler distFn _ _ rfl (le_refl 0)
  · intro hle
    rw [fetch_noCancel, rmoPairs_degenerate rmos hle]
    rfl

/-- C8 witness: the totals identities evaluated on a concrete three-waypoint
route, and the degenerate conclusion on a one-waypoint route. -/
theorem c8_assembly_totals_witness :
    (fetchRouteElevationsThread flatSampler cDist rmosABC noCancel).elevationLegs.length =
        rmosABC.length - 1 ∧
      (fetchRouteElevationsThread flatSampler cDist rmosABC noCancel).totalDistance =
        ((fetchRouteElevationsThread flatSampler cDist rmosABC noCancel).elevationLegs.map
          legDelta).sum ∧
      [(⟨⟨0, 0, 0⟩, "A"⟩ : RouteMapObject)].length ≤ 1 ∧
      fetchRouteElevationsThread flatSampler cDist [⟨⟨0, 0, 0⟩, "A"⟩] noCancel =
        { routeMapObjects := [⟨⟨0, 0, 0⟩, "A"⟩] } :=
  ⟨(c8_assembly_totals flatSampler cDist rmosABC).1,
    (c8_assembly_totals flatSampler cDist rmosABC).2.1,
    by norm_num,
    (c8_assembly_totals flatSampler cDist [⟨⟨0, 0, 0⟩, "A"⟩]).2.2.2 (by norm_num)⟩

/-- A successful indexed lookup comes from an in-range `get`. -/
theorem get?_some_get {α : Type} (l : List α) (n : Nat) (a : α) (h : l.get? n = some a) :
    ∃ hn : n < l.length, l.get ⟨n, hn⟩ = a := by
  have hn : n < l.length := by
    by_contra hge
    rw [List.get?_eq_none.mpr (by omega)] at h
    cases h
  refine ⟨hn, ?_⟩
  have hg := List.get?_eq_get (l := l) hn
  rw [h] at hg
  exact (Option.some_inj.mp hg).symm

/-- The k-th leg of a non-cancelled run is the Leg Builder's output for the
k-th pair, from a state with exactly `k` accumulated legs. -/
theorem fetch_get_buildLeg (sampler : Sampler) (distFn : DistFn) (rmos : List RouteMapObject)
    (k : Nat) (pr : RouteMapObject × RouteMapObject)
    (hpr : (rmoPairs rmos).get? k = some pr) :
    ∃ st : ElevationLegList, st.elevationLegs.length = k ∧ st.routeMapObjects = rmos ∧
      (fetchRouteElevationsThread sampler distFn rmos noCancel).elevationLegs.get? k =
        some (buildLeg sampler distFn pr st).1 := by
  obtain ⟨st, h1, h2, h3⟩ := legsLoopNC_get sampler distFn (rmoPairs rmos)
    { routeMapObjects := rmos } k pr hpr
  refine ⟨st, by simpa using h1, by simpa using h2, ?_⟩
  rw [fetch_noCancel]
  simpa using h3

/-- C10: for every non-cancelled run, cumulative distances are continuous
across leg boundaries — every leg's first distance entry equals the previous
leg's last entry, and the first leg's first entry is 0. -/
theorem c10_distance_continuity (sampler : Sampler) (distFn : DistFn)
    (rmos : List RouteMapObject) (k : Nat) (leg leg' leg0 : ElevationLeg)
    (h1 : (fetchRouteElevationsThread sampler distFn rmos noCancel).elevationLegs.get? k =
      some leg)
    (h2 : (fetchRouteElevationsThread sampler distFn rmos noCancel).elevationLegs.get? (k + 1) =
      some leg')
    (h0 : (fetchRouteElevationsThread sampler distFn rmos noCancel).elevationLegs.get? 0 =
      some leg0) :
    leg'.distances.head? = leg.distances.getLast? ∧ leg0.distances.head? = some 0 := by
  obtain ⟨hchain, hhead⟩ := legsLoopNC_contig sampler distFn (rmoPairs rmos)
    { routeMapObjects := rmos } (by simp) (by simp) (fun _ => rfl) (by simp)
  rw [fetch_noCancel] at h1 h2 h0
  constructor
  · obtain ⟨hk1, e1⟩ := get?_some_get _ _ _ h1
    obtain ⟨hk2, e2⟩ := get?_some_get _ _ _ h2
    have hcg := List.chain'_iff_get.mp hchain k (by omega)
    rw [e1, e2] at hcg
    exact hcg
  · exact hhead leg0 (by rw [← List.get?_zero]; exact h0)

/-- C10 witness: the continuity facts on the two legs of a concrete
three-waypoint run. -/
theorem c10_distance_continuity_witness :
    (fetchRouteElevationsThread flatSampler cDist rmosABC noCancel).elevationLegs.get? 0 =
        some ((fetchRouteElevationsThread flatSampler cDist
          rmosABC noCancel).elevationLegs.getD 0 default) ∧
      (fetchRouteElevationsThread flatSampler cDist rmosABC noCancel).elevationLegs.get? 1 =
        some ((fetchRouteElevationsThread flatSampler cDist
          rmosABC noCancel).elevationLegs.getD 1 default) ∧
      ((fetchRouteElevationsThread flatSampler cDist
            rmosABC noCancel).elevationLegs.getD 1 default).distances.head? =
          ((fetchRouteElevationsThread flatSampler cDist
            rmosABC noCancel).elevationLegs.getD 0 default).distances.getLast? ∧
      ((fetchRouteElevationsThread flatSampler cDist
          rmosABC noCancel).elevationLegs.getD 0 default).distances.head? = some 0 :=
  ⟨by norm_num [fetchRouteElevationsThread, legsLoop, legLoop, appendLeg, rmoPairs, rmosABC,
      effSamples, flatSampler, noCancel, dropSample, sampleStep, coordToPos, meterToFeet,
      meterToNm, almostEqual, cDist],
    by norm_num [fetchRouteElevationsThread, legsLoop, legLoop, appendLeg, rmoPairs, rmosABC,
      effSamples, flatSampler, noCancel, dropSample, sampleStep, coordToPos, meterToFeet,
      meterToNm, almostEqual, cDist],
    c10_distance_continuity flatSampler cDist rmosABC 0 _ _ _
      (by norm_num [fetchRouteElevationsThread, legsLoop, legLoop, appendLeg, rmoPairs, rmosABC,
        effSamples, flatSampler, noCancel, dropSample, sampleStep, coordToPos, meterToFeet,
        meterToNm, almostEqual, cDist])
      (by norm_num [fetchRouteElevationsThread, legsLoop, legLoop, appendLeg, rmoPairs, rmosABC,
        effSamples, flatSampler, noCancel, dropSample, sampleStep, coordToPos, meterToFeet,
        meterToNm, almostEqual, cDist])
      (by norm_num [fetchRouteElevationsThread, legsLoop, legLoop, appendLeg, rmoPairs, rmosABC,
        effSamples, flatSampler, noCancel, dropSample, sampleStep, coordToPos, meterToFeet,
        meterToNm, almostEqual, cDist])⟩

/-- C7: for every leg of a non-cancelled run, `elevation` and `distances` have
the same length, `distances` is non-decreasing, and the first and last samples
of the leg's terrain segment are present regardless of thinning. -/
theorem c7_leg_invariants (sampler : Sampler) (distFn : DistFn) (rmos : List RouteMapObject)
    (k : Nat) (pr : RouteMapObject × RouteMapObject) (leg : ElevationLeg)
    (hpr : (rmoPairs rmos).get? k = some pr)
    (hleg : (fetchRouteElevationsThread sampler distFn rmos noCancel).elevationLegs.get? k =
      some leg) :
    leg.elevation.length = leg.distances.length ∧
      List.Chain' (· ≤ ·) leg.distances ∧
      leg.elevation.head? = ((effSamples sampler pr).head?).map coordToPos ∧
      leg.elevation.getLast? = ((effSamples sampler pr).getLast?).map coordToPos := by
  obtain ⟨st, hlen, hrmo, hget⟩ := fetch_get_buildLeg sampler distFn rmos k pr hpr
  rw [hget] at hleg
  obtain rfl : leg = (buildLeg sampler distFn pr st).1 := (Option.some_inj.mp hleg).symm
  refine ⟨?_, ?_, buildLeg_elev_head sampler distFn pr st, buildLeg_elev_last sampler distFn pr st⟩
  · unfold buildLeg
    exact legLoopNC_length distFn _ _ 0 {} st none rfl
  · unfold buildLeg
    exact (legLoopNC_chain distFn _ _ 0 {} st none List.chain'_nil (by simp)).1

/-- C7 witness: the invariants evaluated on the second leg of a concrete
four-waypoint run with a rising terrain ramp. -/
theorem c7_leg_invariants_witness :
    (rmoPairs rmosABCD).get? 1 = some ((rmoPairs rmosABCD).getD 1 default) ∧
      (fetchRouteElevationsThread rampSampler cDist rmosABCD noCancel).elevationLegs.get? 1 =
        some ((fetchRouteElevationsThread rampSampler cDist
          rmosABCD noCancel).elevationLegs.getD 1 default) ∧
      (((fetchRouteElevationsThread rampSampler cDist
            rmosABCD noCancel).elevationLegs.getD 1 default).elevation.length =
          ((fetchRouteElevationsThread rampSampler cDist
            rmosABCD noCancel).elevationLegs.getD 1 default).distances.length ∧
        List.Chain' (· ≤ ·) ((fetchRouteElevationsThread rampSampler cDist
          rmosABCD noCancel).elevationLegs.getD 1 default).distances ∧
        ((fetchRouteElevationsThread rampSampler cDist
            rmosABCD noCancel).elevationLegs.getD 1 default).elevation.head? =
          ((effSamples rampSampler ((rmoPairs rmosABCD).getD 1 default)).head?).map coordToPos ∧
        ((fetchRouteElevationsThread rampSampler cDist
            rmosABCD noCancel).elevationLegs.getD 1 default).elevation.getLast? =
          ((effSamples rampSampler
            ((rmoPairs rmosABCD).getD 1 default)).getLast?).map coordToPos) :=
  ⟨by norm_num [rmoPairs, rmosABCD, List.zip_cons_cons],
    by norm_num [fetchRouteElevationsThread, legsLoop, legLoop, appendLeg, rmoPairs, rmosABCD,
      effSamples, rampSampler, noCancel, dropSample, sampleStep, coordToPos, meterToFeet,
      meterToNm, almostEqual, cDist, List.zip_cons_cons],
    c7_leg_invariants rampSampler cDist rmosABCD 1 _ _
      (by norm_num [rmoPairs, rmosABCD, List.zip_cons_cons])
      (by norm_num [fetchRouteElevationsThread, legsLoop, legLoop, appendLeg, rmoPairs, rmosABCD,
        effSamples, rampSampler, noCancel, dropSample, sampleStep, coordToPos, meterToFeet,
        meterToNm, almostEqual, cDist, List.zip_cons_cons])⟩

/-- C9: for every leg whose terrain answer is empty, the Leg Builder
substitutes exactly the synthetic two-point flat sequence at altitude 0
spanning the two endpoint coordinates (the embedding is total, so no error is
signalled). -/
theorem c9_flat_fallback (sampler : Sampler) (distFn : DistFn) (rmos : List RouteMapObject)
    (k : Nat) (pr : RouteMapObject × RouteMapObject) (leg : ElevationLeg)
    (hpr : (rmoPairs rmos).get? k = some pr)
    (hempty : sampler pr.1.pos.lon pr.1.pos.lat pr.2.pos.lon pr.2.pos.lat = [])
    (hleg : (fetchRouteElevationsThread sampler distFn rmos noCancel).elevationLegs.get? k =
      some leg) :
    leg.elevation = [⟨pr.1.pos.lon, pr.1.pos.lat, 0⟩, ⟨pr.2.pos.lon, pr.2.pos.lat, 0⟩] := by
  obtain ⟨st, hlen, hrmo, hget⟩ := fetch_get_buildLeg sampler distFn rmos k pr hpr
  rw [hget] at hleg
  obtain rfl : leg = (buildLeg sampler distFn pr st).1 := (Option.some_inj.mp hleg).symm
  have hes : effSamples sampler pr =
      [⟨pr.1.pos.lon, pr.1.pos.lat, 0⟩, ⟨pr.2.pos.lon, pr.2.pos.lat, 0⟩] := by
    simp [effSamples, hempty]
  unfold buildLeg
  rw [legLoopNC_thin, hes]
  simp [thinAux, dropSample, coordToPos, meterToFeet]

/-- C9 witness: the flat fallback on a concrete pair with an empty terrain
answer. -/
theorem c9_flat_fallback_witness :
    (rmoPairs rmosAB).get? 0 = some ((rmoPairs rmosAB).getD 0 default) ∧
      emptySampler ((rmoPairs rmosAB).getD 0 default).1.pos.lon
          ((rmoPairs rmosAB).getD 0 default).1.pos.lat
          ((rmoPairs rmosAB).getD 0 default).2.pos.lon
          ((rmoPairs rmosAB).getD 0 default).2.pos.lat = [] ∧
      (fetchRouteElevationsThread emptySampler cDist rmosAB noCancel).elevationLegs.get? 0 =
        some ((fetchRouteElevationsThread emptySampler cDist
          rmosAB noCancel).elevationLegs.getD 0 default) ∧
      ((fetchRouteElevationsThread emptySampler cDist
          rmosAB noCancel).elevationLegs.getD 0 default).elevation =
        [⟨((rmoPairs rmosAB).getD 0 default).1.pos.lon,
            ((rmoPairs rmosAB).getD 0 default).1.pos.lat, 0⟩,
          ⟨((rmoPairs rmosAB).getD 0 default).2.pos.lon,
            ((rmoPairs rmosAB).getD 0 default).2.pos.lat, 0⟩] :=
  ⟨by norm_num [rmoPairs, rmosAB, List.zip_cons_cons],
    by norm_num [rmoPairs, rmosAB, emptySampler, List.zip_cons_cons],
    by norm_num [fetchRouteElevationsThread, legsLoop, legLoop, appendLeg, rmoPairs, rmosAB,
      effSamples, emptySampler, noCancel, dropSample, sampleStep, coordToPos, meterToFeet,
      meterToNm, almostEqual, cDist, List.zip_cons_cons],
    c9_flat_fallback emptySampler cDist rmosAB 0 _ _
      (by norm_num [rmoPairs, rmosAB, List.zip_cons_cons])
      (by norm_num [rmoPairs, rmosAB, emptySampler, List.zip_cons_cons])
      (by norm_num [fetchRouteElevationsThread, legsLoop, legLoop, appendLeg, rmoPairs, rmosAB,
        effSamples, emptySampler, noCancel, dropSample, sampleStep, coordToPos, meterToFeet,
        meterToNm, almostEqual, cDist, List.zip_cons_cons])⟩

/-- C1 (amended): in a non-cancelled run, the retained samples of the k-th
leg are exactly the reference thinning of its effective samples with the
accumulated-legs count `k`: a sample is dropped iff it is not the first and
not the last sample of the segment, MORE than two legs (at least three) are
already accumulated, and its altitude differs from the last retained sample's
altitude by less than 10 ft; in every other case it is retained. -/
theorem c1_thinning_amended (sampler : Sampler) (distFn : DistFn) (rmos : List RouteMapObject)
    (k : Nat) (pr : RouteMapObject × RouteMapObject) (leg : ElevationLeg)
    (hpr : (rmoPairs rmos).get? k = some pr)
    (hleg : (fetchRouteElevationsThread sampler distFn rmos noCancel).elevationLegs.get? k =
      some leg) :
    leg.elevation = thinnedElevation k (effSamples sampler pr) := by
  obtain ⟨st, hlen, hrmo, hget⟩ := fetch_get_buildLeg sampler distFn rmos k pr hpr
  rw [hget] at hleg
  obtain rfl : leg = (buildLeg sampler distFn pr st).1 := (Option.some_inj.mp hleg).symm
  unfold buildLeg
  rw [legLoopNC_thin, hlen]
  rfl

/-- C1 counterexample: on a four-waypoint route whose terrain answers start
with two samples at the same altitude, the third leg (exactly two legs already
accumulated) keeps its middle sample, whereas the claim as written — thinning
active once AT LEAST two legs are accumulated — predicts that it is dropped:
the produced elevation differs from the claim's prediction. -/
theorem c1_claim_counterexample :
    ((fetchRouteElevationsThread rampSampler cDist rmosABCD noCancel).elevationLegs.getD 2
        default).elevation ≠
      thinnedElevationClaimC1 2
        (effSamples rampSampler ((rmoPairs rmosABCD).getD 2 default)) := by
  norm_num [fetchRouteElevationsThread, legsLoop, legLoop, appendLeg, rmoPairs, rmosABCD,
    effSamples, rampSampler, noCancel, dropSample, sampleStep, coordToPos, meterToFeet,
    meterToNm, almostEqual, cDist, thinnedElevationClaimC1, thinClaimAuxC1, dropSampleClaimC1,
    List.zip_cons_cons]

/-- C1 witness: the amended thinning equality evaluated on the third leg of
the concrete four-waypoint run. -/
theorem c1_thinning_amended_witness :
    (rmoPairs rmosABCD).get? 2 = some ((rmoPairs rmosABCD).getD 2 default) ∧
      (fetchRouteElevationsThread rampSampler cDist rmosABCD noCancel).elevationLegs.get? 2 =
        some ((fetchRouteElevationsThread rampSampler cDist
          rmosABCD noCancel).elevationLegs.getD 2 default) ∧
      ((fetchRouteElevationsThread rampSampler cDist
          rmosABCD noCancel).elevationLegs.getD 2 default).elevation =
        thinnedElevation 2 (effSamples rampSampler ((rmoPairs rmosABCD).getD 2 default)) :=
  ⟨by norm_num [rmoPairs, rmosABCD, List.zip_cons_cons],
    by norm_num [fetchRouteElevationsThread, legsLoop, legLoop, appendLeg, rmoPairs, rmosABCD,
      effSamples, rampSampler, noCancel, dropSample, sampleStep, coordToPos, meterToFeet,
      meterToNm, almostEqual, cDist, List.zip_cons_cons],
    c1_thinning_amended rampSampler cDist rmosABCD 2 _ _
      (by norm_num [rmoPairs, rmosABCD, List.zip_cons_cons])
      (by norm_num [fetchRouteElevationsThread, legsLoop, legLoop, appendLeg, rmoPairs, rmosABCD,
        effSamples, rampSampler, noCancel, dropSample, sampleStep, coordToPos, meterToFeet,
        meterToNm, almostEqual, cDist, List.zip_cons_cons])⟩

/-- C2 (amended): the thread's result is determined by which
cancellation-flag read first observes a set flag.  Reads happen in a fixed
order: one per-leg read at the top of each outer iteration, then one
per-sample read for each effective sample of the pair.  (1) If every read of
the run's window is clear, the run returns the full uncancelled result.
(2) If the first set read is the per-leg read of pair `k` (line 366,
`return legs`), the run returns exactly the legs accumulated so far: the
route snapshot with precisely the first `k` legs of the full run.  (3) If
the first set read is a per-sample read (line 390), the run returns exactly
the default-constructed empty list, discarding all partial work. -/
theorem c2_cancellation_amended (sampler : Sampler) (distFn : DistFn)
    (rmos : List RouteMapObject) (term : Nat → Bool) :
    ((List.range (totalChecks sampler (rmoPairs rmos))).all
        (fun i => !term i) = true →
      fetchRouteElevationsThread sampler distFn rmos term =
        fetchRouteElevationsThread sampler distFn rmos noCancel) ∧
    (∀ k pr, (rmoPairs rmos).get? k = some pr →
      (List.range (checksBefore sampler (rmoPairs rmos) k)).all
          (fun i => !term i) = true →
      term (checksBefore sampler (rmoPairs rmos) k) = true →
      fetchRouteElevationsThread sampler distFn rmos term =
          legsLoopNC sampler distFn ((rmoPairs rmos).take k)
            { routeMapObjects := rmos } ∧
        (fetchRouteElevationsThread sampler distFn rmos term).elevationLegs =
          ((fetchRouteElevationsThread sampler distFn rmos
            noCancel).elevationLegs).take k) ∧
    (∀ k pr j, (rmoPairs rmos).get? k = some pr →
      (List.range (checksBefore sampler (rmoPairs rmos) k + 1)).all
          (fun i => !term i) = true →
      j < (effSamples sampler pr).length →
      term (checksBefore sampler (rmoPairs rmos) k + 1 + j) = true →
      fetchRouteElevationsThread sampler distFn rmos term = {}) := by
  have hconv : ∀ c : Nat, (List.range c).all (fun i => !term i) = true →
      ∀ i, 0 ≤ i → i < 0 + c → term i = false := by
    intro c hc i _ hi
    have hx := (List.all_eq_true.mp hc) i (List.mem_range.mpr (by omega))
    simpa using hx
  refine ⟨?_, ?_, ?_⟩
  · intro hall
    unfold fetchRouteElevationsThread
    rw [legsLoop_window_false sampler distFn term (rmoPairs rmos) _ 0
      (hconv _ hall), legsLoop_noCancel]
  · intro k pr hget hall ht
    have hk : k ≤ (rmoPairs rmos).length := by
      by_contra hcon
      rw [List.get?_eq_none.mpr (by omega)] at hget
      simp at hget
    have hmain : fetchRouteElevationsThread sampler distFn rmos term =
        legsLoopNC sampler distFn ((rmoPairs rmos).take k)
          { routeMapObjects := rmos } := by
      unfold fetchRouteElevationsThread
      exact legsLoop_stop_at_leg_check sampler distFn term (rmoPairs rmos) _ 0 k pr hget
        (hconv _ hall) (by simpa using ht)
    refine ⟨hmain, ?_⟩
    rw [hmain, fetch_noCancel]
    exact legsLoopNC_take sampler distFn (rmoPairs rmos) _ k hk rfl
  · intro k pr j hget hall hj ht
    unfold fetchRouteElevationsThread
    exact legsLoop_stop_at_sample_check sampler distFn term (rmoPairs rmos) _ 0 k pr j hget
      (hconv _ hall) hj (by simpa using ht)

/-- C2 counterexample: with the cancellation flag first observed set at the
per-leg check before the second leg (the flag becomes set at the third read
and stays set), the thread returns the list with the one already-completed
leg — not an empty "no result" list as the claim states. -/
theorem c2_claim_counterexample :
    fetchRouteElevationsThread oneSampler cDist rmosABC (fun k => decide (2 ≤ k)) ≠
        ({} : ElevationLegList) ∧
      (fetchRouteElevationsThread oneSampler cDist rmosABC
        (fun k => decide (2 ≤ k))).elevationLegs.length = 1 := by
  constructor <;>
    norm_num [fetchRouteElevationsThread, legsLoop, legLoop, appendLeg, rmoPairs, rmosABC,
      effSamples, oneSampler, dropSample, sampleStep, coordToPos, meterToFeet, meterToNm,
      almostEqual, cDist, List.zip_cons_cons]

/-- C2 witness: the three exits observed on concrete runs — a window of all
clear reads reproduces the uncancelled run; a flag first seen at the per-leg
read of the second pair returns exactly the first accumulated leg; a flag
first seen at the first per-sample read returns the empty default list. -/
theorem c2_cancellation_amended_witness :
    ((List.range (totalChecks oneSampler (rmoPairs rmosAB))).all
        (fun i => !decide (10 ≤ i)) = true ∧
      fetchRouteElevationsThread oneSampler cDist rmosAB (fun k => decide (10 ≤ k)) =
        fetchRouteElevationsThread oneSampler cDist rmosAB noCancel) ∧
    ((rmoPairs rmosABC).get? 1 = some ((rmoPairs rmosABC).getD 1 default) ∧
      (List.range (checksBefore oneSampler (rmoPairs rmosABC) 1)).all
        (fun i => !decide (2 ≤ i)) = true ∧
      decide (2 ≤ checksBefore oneSampler (rmoPairs rmosABC) 1) = true ∧
      fetchRouteElevationsThread oneSampler cDist rmosABC (fun k => decide (2 ≤ k)) =
          legsLoopNC oneSampler cDist ((rmoPairs rmosABC).take 1)
            { routeMapObjects := rmosABC } ∧
        (fetchRouteElevationsThread oneSampler cDist rmosABC
            (fun k => decide (2 ≤ k))).elevationLegs =
          ((fetchRouteElevationsThread oneSampler cDist rmosABC
            noCancel).elevationLegs).take 1) ∧
    ((rmoPairs rmosAB).get? 0 = some ((rmoPairs rmosAB).getD 0 default) ∧
      (List.range (checksBefore oneSampler (rmoPairs rmosAB) 0 + 1)).all
        (fun i => !decide (1 ≤ i)) = true ∧
      0 < (effSamples oneSampler ((rmoPairs rmosAB).getD 0 default)).length ∧
      decide (1 ≤ checksBefore oneSampler (rmoPairs rmosAB) 0 + 1 + 0) = true ∧
      fetchRouteElevationsThread oneSampler cDist rmosAB (fun k => decide (1 ≤ k)) = {}) := by
  have hAall : (List.range (totalChecks oneSampler (rmoPairs rmosAB))).all
      (fun i => !decide (10 ≤ i)) = true := by
    norm_num [totalChecks, pairChecks, effSamples, oneSampler, rmoPairs, rmosAB,
      List.zip_cons_cons, List.range_succ]
  have hBget : (rmoPairs rmosABC).get? 1 = some ((rmoPairs rmosABC).getD 1 default) := by
    norm_num [rmoPairs, rmosABC, List.zip_cons_cons]
  have hBall : (List.range (checksBefore oneSampler (rmoPairs rmosABC) 1)).all
      (fun i => !decide (2 ≤ i)) = true := by
    norm_num [checksBefore, pairChecks, effSamples, oneSampler, rmoPairs, rmosABC,
      List.zip_cons_cons, List.range_succ]
  have hBt : decide (2 ≤ checksBefore oneSampler (rmoPairs rmosABC) 1) = true := by
    norm_num [checksBefore, pairChecks, effSamples, oneSampler, rmoPairs, rmosABC,
      List.zip_cons_cons]
  have hCget : (rmoPairs rmosAB).get? 0 = some ((rmoPairs rmosAB).getD 0 default) := by
    norm_num [rmoPairs, rmosAB, List.zip_cons_cons]
  have hCall : (List.range (checksBefore oneSampler (rmoPairs rmosAB) 0 + 1)).all
      (fun i => !decide (1 ≤ i)) = true := by
    norm_num [checksBefore, List.range_succ]
  have hCj : 0 < (effSamples oneSampler ((rmoPairs rmosAB).getD 0 default)).length := by
    norm_num [effSamples, oneSampler, rmoPairs, rmosAB, List.zip_cons_cons]
  have hCt : decide (1 ≤ checksBefore oneSampler (rmoPairs rmosAB) 0 + 1 + 0) = true := by
    norm_num [checksBefore]
  exact ⟨⟨hAall,
      (c2_cancellation_amended oneSampler cDist rmosAB (fun k => decide (10 ≤ k))).1 hAall⟩,
    ⟨hBget, hBall, hBt,
      (c2_cancellation_amended oneSampler cDist rmosABC
        (fun k => decide (2 ≤ k))).2.1 1 ((rmoPairs rmosABC).getD 1 default)
        hBget hBall hBt⟩,
    ⟨hCget, hCall, hCj, hCt,
      (c2_cancellation_amended oneSampler cDist rmosAB
        (fun k => decide (1 ≤ k))).2.2 0 ((rmoPairs rmosAB).getD 0 default) 0
        hCget hCall hCj hCt⟩⟩

/-- C3 (amended): the silhouette polygon consists of the two sentinel corner
vertices around the per-leg thinned projected points, where the tracked last
appended point restarts as the null point `(0, 0)` on EVERY leg — so a point
is appended iff the tracked point is still null (in particular for the first
point of each leg, not only the first point overall), or it is the last point
of its leg, or its pixel-space Manhattan distance from the tracked point
exceeds 2 pixels. -/
theorem c3_projection_thinning_amended (legList : ElevationLegList) (inp : ScreenInput)
    (hlen : legList.elevationLegs.all
      (fun leg => leg.distances.length == leg.elevation.length) = true) :
    (updateScreenCoords legList inp).poly =
      (X0, inp.rectHeight - Y0 + Y0) ::
        ((legList.elevationLegs.flatMap fun leg =>
            amendedThinLegC3 (inp.rectHeight - Y0) (updateScreenCoords legList inp).horizScale
              (updateScreenCoords legList inp).vertScale
              (leg.distances.zip (leg.elevation.map Pos.alt)) (0, 0)) ++
          [(X0 + (inp.rectWidth - X0 * 2), inp.rectHeight - Y0 + Y0)]) := by
  simp only [List.all_eq_true, beq_iff_eq] at hlen
  have hflat : ∀ ls : List ElevationLeg,
      (∀ leg ∈ ls, leg.distances.length = leg.elevation.length) →
      (ls.flatMap fun leg =>
        polyPoints (inp.rectHeight - Y0) (updateScreenCoords legList inp).horizScale
          (updateScreenCoords legList inp).vertScale leg 0 (0, 0)) =
      ls.flatMap fun leg =>
        amendedThinLegC3 (inp.rectHeight - Y0) (updateScreenCoords legList inp).horizScale
          (updateScreenCoords legList inp).vertScale
          (leg.distances.zip (leg.elevation.map Pos.alt)) (0, 0) := by
    intro ls hl
    induction ls with
    | nil => rfl
    | cons a t iht =>
      simp only [List.flatMap_cons]
      rw [polyPoints_eq_amended (inp.rectHeight - Y0) (updateScreenCoords legList inp).horizScale
          (updateScreenCoords legList inp).vertScale a (hl a (by simp))
          a.elevation.length 0 (0, 0) (by omega),
        List.drop_zero, iht (fun x hx => hl x (by simp [hx]))]
  rw [← hflat legList.elevationLegs hlen]
  rfl

/-- C3 counterexample: on a concrete assembled two-leg profile whose legs
share their boundary point, the projector's polygon differs from the polygon
predicted by the claim as written (one tracked last-appended point for the
whole profile): the first point of the second leg is appended by the code
even though it is not the first point overall, not the last point of its leg,
and lies within 2 pixels of the last appended point. -/
theorem c3_claim_counterexample :
    (updateScreenCoords (fetchRouteElevationsThread flatSampler cDist rmosABC noCancel)
        ⟨400, 300, 500, false, 0⟩).poly ≠
      claimPolyC3 (fetchRouteElevationsThread flatSampler cDist rmosABC noCancel)
        ⟨400, 300, 500, false, 0⟩ := by
  have hrun : fetchRouteElevationsThread flatSampler cDist rmosABC noCancel =
      { elevationLegs :=
          [{ elevation := [⟨0, 0, 0⟩, ⟨1, 0, 0⟩], distances := [0, 1], maxElevation := 0 },
            { elevation := [⟨1, 0, 0⟩, ⟨2, 0, 0⟩], distances := [1, 2], maxElevation := 0 }],
        routeMapObjects := rmosABC, totalNumPoints := 4, totalDistance := 2,
        maxRouteElevation := 0 } := by
    norm_num [fetchRouteElevationsThread, legsLoop, legLoop, appendLeg, rmoPairs, rmosABC,
      effSamples, flatSampler, noCancel, dropSample, sampleStep, coordToPos, meterToFeet,
      meterToNm, almostEqual, cDist, List.zip_cons_cons]
  rw [hrun]
  have e1 : polyPoints 286 135 (143 / 500)
      { elevation := [⟨0, 0, 0⟩, ⟨1, 0, 0⟩], distances := [0, 1], maxElevation := 0 }
      0 (0 : ℤ × ℤ) = [(65, 300), (200, 300)] := by
    rw [polyPoints_eq_amended 286 135 (143 / 500)
      { elevation := [⟨0, 0, 0⟩, ⟨1, 0, 0⟩], distances := [0, 1], maxElevation := 0 }
      (by norm_num) 2 0 (0 : ℤ × ℤ) (by norm_num)]
    norm_num [amendedThinLegC3, projectPoint, truncQ, manhattanLength, X0, Y0,
      List.zip_cons_cons]
  have e2 : polyPoints 286 135 (143 / 500)
      { elevation := [⟨1, 0, 0⟩, ⟨2, 0, 0⟩], distances := [1, 2], maxElevation := 0 }
      0 (0 : ℤ × ℤ) = [(200, 300), (335, 300)] := by
    rw [polyPoints_eq_amended 286 135 (143 / 500)
      { elevation := [⟨1, 0, 0⟩, ⟨2, 0, 0⟩], distances := [1, 2], maxElevation := 0 }
      (by norm_num) 2 0 (0 : ℤ × ℤ) (by norm_num)]
    norm_num [amendedThinLegC3, projectPoint, truncQ, manhattanLength, X0, Y0,
      List.zip_cons_cons]
  have hhs : (updateScreenCoords
      { elevationLegs :=
          [{ elevation := [⟨0, 0, 0⟩, ⟨1, 0, 0⟩], distances := [0, 1], maxElevation := 0 },
            { elevation := [⟨1, 0, 0⟩, ⟨2, 0, 0⟩], distances := [1, 2], maxElevation := 0 }],
        routeMapObjects := rmosABC, totalNumPoints := 4, totalDistance := 2,
        maxRouteElevation := 0 } ⟨400, 300, 500, false, 0⟩).horizScale = 135 := by
    rw [updateScreenCoords]
    norm_num [X0]
  have hvs : (updateScreenCoords
      { elevationLegs :=
          [{ elevation := [⟨0, 0, 0⟩, ⟨1, 0, 0⟩], distances := [0, 1], maxElevation := 0 },
            { elevation := [⟨1, 0, 0⟩, ⟨2, 0, 0⟩], distances := [1, 2], maxElevation := 0 }],
        routeMapObjects := rmosABC, totalNumPoints := 4, totalDistance := 2,
        maxRouteElevation := 0 } ⟨400, 300, 500, false, 0⟩).vertScale = 143 / 500 := by
    rw [updateScreenCoords]
    norm_num [X0, Y0]
  have hcode : (updateScreenCoords
      { elevationLegs :=
          [{ elevation := [⟨0, 0, 0⟩, ⟨1, 0, 0⟩], distances := [0, 1], maxElevation := 0 },
            { elevation := [⟨1, 0, 0⟩, ⟨2, 0, 0⟩], distances := [1, 2], maxElevation := 0 }],
        routeMapObjects := rmosABC, totalNumPoints := 4, totalDistance := 2,
        maxRouteElevation := 0 } ⟨400, 300, 500, false, 0⟩).poly =
      [(65, 300), (65, 300), (200, 300), (200, 300), (335, 300), (335, 300)] := by
    rw [updateScreenCoords]
    norm_num [X0, Y0, e1, e2]
  have hclaim : claimPolyC3
      { elevationLegs :=
          [{ elevation := [⟨0, 0, 0⟩, ⟨1, 0, 0⟩], distances := [0, 1], maxElevation := 0 },
            { elevation := [⟨1, 0, 0⟩, ⟨2, 0, 0⟩], distances := [1, 2], maxElevation := 0 }],
        routeMapObjects := rmosABC, totalNumPoints := 4, totalDistance := 2,
        maxRouteElevation := 0 } ⟨400, 300, 500, false, 0⟩ =
      [(65, 300), (65, 300), (200, 300), (335, 300), (335, 300)] := by
    rw [claimPolyC3]
    norm_num [hhs, hvs, claimPolyC3Aux, claimThinLegC3, projectPoint, truncQ,
      manhattanLength, X0, Y0, List.zip_cons_cons, Option.some_ne_none]
  rw [hcode, hclaim]
  decide

/-- C3 witness: the amended polygon identity evaluated on a concrete
assembled profile. -/
theorem c3_projection_thinning_amended_witness :
    ((fetchRouteElevationsThread flatSampler cDist rmosABC noCancel).elevationLegs.all
        (fun leg => leg.distances.length == leg.elevation.length) = true) ∧
      (updateScreenCoords (fetchRouteElevationsThread flatSampler cDist rmosABC noCancel)
          ⟨400, 300, 500, false, 0⟩).poly =
        (X0, (300 : ℤ) - Y0 + Y0) ::
          (((fetchRouteElevationsThread flatSampler cDist
              rmosABC noCancel).elevationLegs.flatMap fun leg =>
              amendedThinLegC3 ((300 : ℤ) - Y0)
                (updateScreenCoords (fetchRouteElevationsThread flatSampler cDist
                  rmosABC noCancel) ⟨400, 300, 500, false, 0⟩).horizScale
                (updateScreenCoords (fetchRouteElevationsThread flatSampler cDist
                  rmosABC noCancel) ⟨400, 300, 500, false, 0⟩).vertScale
                (leg.distances.zip (leg.elevation.map Pos.alt)) (0, 0)) ++
            [(X0 + ((400 : ℤ) - X0 * 2), (300 : ℤ) - Y0 + Y0)]) :=
  ⟨by norm_num [fetchRouteElevationsThread, legsLoop, legLoop, appendLeg, rmoPairs, rmosABC,
      effSamples, flatSampler, noCancel, dropSample, sampleStep, coordToPos, meterToFeet,
      meterToNm, almostEqual, cDist, List.zip_cons_cons],
    c3_projection_thinning_amended (fetchRouteElevationsThread flatSampler cDist rmosABC noCancel)
      ⟨400, 300, 500, false, 0⟩
      (by norm_num [fetchRouteElevationsThread, legsLoop, legLoop, appendLeg, rmoPairs, rmosABC,
        effSamples, flatSampler, noCancel, dropSample, sampleStep, coordToPos, meterToFeet,
        meterToNm, almostEqual, cDist, List.zip_cons_cons])⟩

theorem exists_head?_some {α : Type} (l : List α) (h : l ≠ []) : ∃ a, l.head? = some a := by
  cases l with
  | nil => exact absurd rfl h
  | cons a t => exact ⟨a, rfl⟩

theorem exists_getLast?_some {α : Type} (l : List α) (h : l ≠ []) : ∃ a, l.getLast? = some a :=
  ⟨l.getLast h, List.getLast?_eq_getLast l h⟩

/-- The projector always records one waypoint pixel per leg plus the closing
sentinel. -/
theorem updateScreenCoords_waypointX_length (legList : ElevationLegList) (inp : ScreenInput) :
    (updateScreenCoords legList inp).waypointX.length = legList.elevationLegs.length + 1 := by
  simp [updateScreenCoords]

/-- The leg index chosen by the query engine is in range whenever the
waypoint pixel list has one entry more than a nonempty leg list. -/
theorem legIndexForX_lt (wx : List ℤ) (x : ℤ) (n : Nat) (hw : wx.length = n + 1)
    (hn : 0 < n) : legIndexForX wx x < n := by
  unfold legIndexForX
  cases hf : findFirstIdx (fun d => decide (x ≤ d)) wx with
  | none => simpa using hn
  | some k =>
    have hk := findFirstIdx_lt_length _ _ _ hf
    rw [hw] at hk
    show k - 1 < n
    omega

/-- The lower-bound sample index is in range for a nonempty sequence. -/
theorem lowDistIndex_lt (ds : List ℚ) (d : ℚ) (h : ds ≠ []) : lowDistIndex ds d < ds.length := by
  unfold lowDistIndex
  cases hf : findFirstIdx (fun e => decide (d ≤ e)) ds with
  | none => simpa using List.length_pos.mpr h
  | some k => simpa using findFirstIdx_lt_length _ _ _ hf

/-- The upper-bound sample index is in range for a nonempty sequence. -/
theorem upDistIndex_lt (ds : List ℚ) (d : ℚ) (h : ds ≠ []) : upDistIndex ds d < ds.length := by
  unfold upDistIndex
  cases hf : findFirstIdx (fun e => decide (d < e)) ds with
  | none => simpa using List.length_pos.mpr h
  | some k => simpa using findFirstIdx_lt_length _ _ _ hf

/-- Hand-assembled one-leg profile used to exercise the query engine. -/
def c4LegList : ElevationLegList :=
  { elevationLegs :=
      [{ elevation := [⟨0, 0, 100⟩, ⟨1, 0, 200⟩], distances := [0, 60], maxElevation := 200 }],
    routeMapObjects := [⟨⟨0, 0, 0⟩, "A"⟩, ⟨⟨1, 0, 0⟩, "B"⟩] }

/-- Hand-assembled projection state matching `c4LegList` (horizontal scale 1,
waypoint pixels at the margins). -/
def c4Proj : ProjectionState := ⟨1000, 500, 1000, 1, 1, [65, 335], []⟩

/-- C4: whenever the query engine answers and the lower-bound and upper-bound
searches hit samples `p1` and `p2` of the located leg, the reported ground
altitude is `abs(alt1 + alt2) / 2`, the average of the two bracketing
samples' altitudes as the source computes it. -/
theorem c4_ground_altitude (legList : ElevationLegList) (proj : ProjectionState)
    (rectWidth xRaw : ℤ) (leg : ElevationLeg) (fromRmo toRmo : RouteMapObject)
    (iL iU : Nat) (p1 p2 : Pos)
    (hleg : legList.elevationLegs.get?
      (legIndexForX proj.waypointX (clampX rectWidth xRaw)) = some leg)
    (hfrom : legList.routeMapObjects.get?
      (legIndexForX proj.waypointX (clampX rectWidth xRaw)) = some fromRmo)
    (hto : legList.routeMapObjects.get?
      (legIndexForX proj.waypointX (clampX rectWidth xRaw) + 1) = some toRmo)
    (hlow : findFirstIdx (fun e => decide (queryDistance proj.horizScale
      (clampX rectWidth xRaw) ≤ e)) leg.distances = some iL)
    (hup : findFirstIdx (fun e => decide (queryDistance proj.horizScale
      (clampX rectWidth xRaw) < e)) leg.distances = some iU)
    (hp1 : leg.elevation.get? iL = some p1)
    (hp2 : leg.elevation.get? iU = some p2) :
    (mouseMoveEvent legList proj rectWidth xRaw).map MouseResult.groundAltitude =
      some (|p1.alt + p2.alt| / 2) := by
  have hne : legList.elevationLegs ≠ [] := by
    intro h
    rw [h] at hleg
    simp at hleg
  have hempty : legList.elevationLegs.isEmpty = false := by
    simpa [List.isEmpty_iff] using hne
  have hdne : leg.distances ≠ [] := by
    intro h
    rw [h] at hlow
    simp [findFirstIdx] at hlow
  have hene : leg.elevation ≠ [] := by
    intro h
    rw [h] at hp1
    simp at hp1
  obtain ⟨d0, hd0⟩ := exists_head?_some leg.distances hdne
  obtain ⟨dL, hdL⟩ := exists_getLast?_some leg.distances hdne
  obtain ⟨e0, he0⟩ := exists_head?_some leg.elevation hene
  obtain ⟨eL, heL⟩ := exists_getLast?_some leg.elevation hene
  simp only [mouseMoveEvent, hempty, Bool.false_eq_true, if_false, hleg, hfrom, hto,
    lowDistIndex, upDistIndex, hlow, hup, Option.getD_some, hp1, hp2, hd0, hdL, he0, heL,
    Option.map_some']

/-- C4 witness: a concrete in-range query on a one-leg profile; the searches
hit the sample above the query distance on both sides and the reported ground
altitude is the (degenerate) average of its altitude with itself. -/
theorem c4_ground_altitude_witness :
    c4LegList.elevationLegs.get? (legIndexForX c4Proj.waypointX (clampX 400 100)) =
        some ⟨[⟨0, 0, 100⟩, ⟨1, 0, 200⟩], [0, 60], 200⟩ ∧
      c4LegList.routeMapObjects.get? (legIndexForX c4Proj.waypointX (clampX 400 100)) =
        some ⟨⟨0, 0, 0⟩, "A"⟩ ∧
      c4LegList.routeMapObjects.get? (legIndexForX c4Proj.waypointX (clampX 400 100) + 1) =
        some ⟨⟨1, 0, 0⟩, "B"⟩ ∧
      findFirstIdx (fun e => decide (queryDistance c4Proj.horizScale (clampX 400 100) ≤ e))
        [(0 : ℚ), 60] = some 1 ∧
      findFirstIdx (fun e => decide (queryDistance c4Proj.horizScale (clampX 400 100) < e))
        [(0 : ℚ), 60] = some 1 ∧
      ([(⟨0, 0, 100⟩ : Pos), ⟨1, 0, 200⟩].get? 1 = some ⟨1, 0, 200⟩) ∧
      (mouseMoveEvent c4LegList c4Proj 400 100).map MouseResult.groundAltitude =
        some (|(⟨1, 0, 200⟩ : Pos).alt + (⟨1, 0, 200⟩ : Pos).alt| / 2) :=
  ⟨by norm_num [c4LegList, c4Proj, legIndexForX, findFirstIdx, clampX, X0],
    by norm_num [c4LegList, c4Proj, legIndexForX, findFirstIdx, clampX, X0],
    by norm_num [c4LegList, c4Proj, legIndexForX, findFirstIdx, clampX, X0],
    by norm_num [c4Proj, findFirstIdx, clampX, queryDistance, X0],
    by norm_num [c4Proj, findFirstIdx, clampX, queryDistance, X0],
    by norm_num,
    c4_ground_altitude c4LegList c4Proj 400 100
      ⟨[⟨0, 0, 100⟩, ⟨1, 0, 200⟩], [0, 60], 200⟩
      ⟨⟨0, 0, 0⟩, "A"⟩ ⟨⟨1, 0, 0⟩, "B"⟩ 1 1 ⟨1, 0, 200⟩ ⟨1, 0, 200⟩
      (by norm_num [c4LegList, c4Proj, legIndexForX, findFirstIdx, clampX, X0])
      (by norm_num [c4LegList, c4Proj, legIndexForX, findFirstIdx, clampX, X0])
      (by norm_num [c4LegList, c4Proj, legIndexForX, findFirstIdx, clampX, X0])
      (by norm_num [c4Proj, findFirstIdx, clampX, queryDistance, X0])
      (by norm_num [c4Proj, findFirstIdx, clampX, queryDistance, X0])
      (by norm_num)
      (by norm_num)⟩

/-- C6 (amended): on an empty profile the query engine refuses to answer
(no result); on a non-empty well-formed profile (route snapshot one longer
than the leg list, every leg non-empty with equally long parallel vectors)
it answers EVERY query pixel, including pixels outside the drawable area,
which are clamped into range first — no container access goes out of
bounds (an out-of-bounds access would surface as a `none` result). -/
theorem c6_query_guard_amended (legList : ElevationLegList) (proj : ProjectionState)
    (inp : ScreenInput) (rectWidth xRaw : ℤ) :
    (legList.elevationLegs = [] → mouseMoveEvent legList proj rectWidth xRaw = none) ∧
      (legList.elevationLegs ≠ [] →
        legList.routeMapObjects.length = legList.elevationLegs.length + 1 →
        legList.elevationLegs.all (fun leg =>
          !leg.elevation.isEmpty && leg.elevation.length == leg.distances.length) = true →
        (mouseMoveEvent legList (updateScreenCoords legList inp) rectWidth xRaw).isSome =
          true) := by
  constructor
  · intro h
    simp [mouseMoveEvent, h]
  · intro hne hrmo hall
    simp only [List.all_eq_true, Bool.and_eq_true, Bool.not_eq_true', List.isEmpty_eq_false,
      beq_iff_eq] at hall
    have hlen0 : 0 < legList.elevationLegs.length := List.length_pos.mpr hne
    have hempty : legList.elevationLegs.isEmpty = false := by
      simpa [List.isEmpty_iff] using hne
    have hwx := updateScreenCoords_waypointX_length legList inp
    have hidx : legIndexForX (updateScreenCoords legList inp).waypointX
        (clampX rectWidth xRaw) < legList.elevationLegs.length :=
      legIndexForX_lt _ _ _ hwx hlen0
    have hleg : legList.elevationLegs.get?
        (legIndexForX (updateScreenCoords legList inp).waypointX (clampX rectWidth xRaw)) =
        some (legList.elevationLegs.get ⟨_, hidx⟩) := List.get?_eq_get hidx
    set leg := legList.elevationLegs.get ⟨legIndexForX (updateScreenCoords legList inp).waypointX
      (clampX rectWidth xRaw), hidx⟩ with hlegdef
    have hmem : leg ∈ legList.elevationLegs := List.get_mem _ _ _
    obtain ⟨hene, hlene⟩ := hall leg hmem
    have hdne : leg.distances ≠ [] := by
      intro h
      rw [h] at hlene
      simp only [List.length_nil] at hlene
      exact hene (List.length_eq_zero.mp hlene)
    have hib : legIndexForX (updateScreenCoords legList inp).waypointX (clampX rectWidth xRaw) <
        legList.routeMapObjects.length := by
      rw [hrmo]
      omega
    have hib1 : legIndexForX (updateScreenCoords legList inp).waypointX
        (clampX rectWidth xRaw) + 1 < legList.routeMapObjects.length := by
      rw [hrmo]
      omega
    have hfrom := List.get?_eq_get (l := legList.routeMapObjects) hib
    have hto := List.get?_eq_get (l := legList.routeMapObjects) hib1
    have hlowlt : lowDistIndex leg.distances (queryDistance
        (updateScreenCoords legList inp).horizScale (clampX rectWidth xRaw)) <
        leg.elevation.length := by
      rw [hlene]
      exact lowDistIndex_lt _ _ hdne
    have huplt : upDistIndex leg.distances (queryDistance
        (updateScreenCoords legList inp).horizScale (clampX rectWidth xRaw)) <
        leg.elevation.length := by
      rw [hlene]
      exact upDistIndex_lt _ _ hdne
    have hp1 : leg.elevation.get? (lowDistIndex leg.distances (queryDistance
        (updateScreenCoords legList inp).horizScale (clampX rectWidth xRaw))) =
        some (leg.elevation.get ⟨_, hlowlt⟩) := List.get?_eq_get hlowlt
    have hp2 : leg.elevation.get? (upDistIndex leg.distances (queryDistance
        (updateScreenCoords legList inp).horizScale (clampX rectWidth xRaw))) =
        some (leg.elevation.get ⟨_, huplt⟩) := List.get?_eq_get huplt
    obtain ⟨d0, hd0⟩ := exists_head?_some leg.distances hdne
    obtain ⟨dL, hdL⟩ := exists_getLast?_some leg.distances hdne
    obtain ⟨e0, he0⟩ := exists_head?_some leg.elevation hene
    obtain ⟨eL, heL⟩ := exists_getLast?_some leg.elevation hene
    simp only [mouseMoveEvent, hempty, Bool.false_eq_true, if_false, hleg, hfrom, hto,
      hp1, hp2, hd0, hdL, he0, heL, Option.isSome_some]

/-- C6 counterexample: a query pixel x = 0 lies outside the drawable area
(which starts at X0 = 65), yet on a non-empty profile the query engine does
not refuse: it clamps x into range and produces an answer. -/
theorem c6_claim_counterexample :
    ((0 : ℤ) < X0) ∧ (mouseMoveEvent c4LegList c4Proj 400 0).isSome = true := by
  constructor
  · norm_num [X0]
  · norm_num [mouseMoveEvent, clampX, legIndexForX, findFirstIdx, lowDistIndex, upDistIndex,
      queryDistance, interpolate, c4LegList, c4Proj, X0, Y0]

/-- C6 witness: the refusal on an empty profile and the guaranteed answer on
a concrete well-formed profile. -/
theorem c6_query_guard_amended_witness :
    (mouseMoveEvent { routeMapObjects := rmosAB } c4Proj 400 100 = none) ∧
      (c4LegList.elevationLegs ≠ [] ∧
        c4LegList.routeMapObjects.length = c4LegList.elevationLegs.length + 1 ∧
        c4LegList.elevationLegs.all (fun leg =>
          !leg.elevation.isEmpty && leg.elevation.length == leg.distances.length) = true) ∧
      (mouseMoveEvent c4LegList (updateScreenCoords c4LegList ⟨400, 300, 500, false, 0⟩)
        400 100).isSome = true :=
  ⟨(c6_query_guard_amended { routeMapObjects := rmosAB } c4Proj ⟨400, 300, 500, false, 0⟩
      400 100).1 rfl,
    ⟨by norm_num [c4LegList], by norm_num [c4LegList], by norm_num [c4LegList]⟩,
    (c6_query_guard_amended c4LegList c4Proj ⟨400, 300, 500, false, 0⟩ 400 100).2
      (by norm_num [c4LegList]) (by norm_num [c4LegList]) (by norm_num [c4LegList])⟩
